import Mathlib

/- The kernel reduces the rational arithmetic of this file fine, but
Mathlib marks the primitive `Rat` operations irreducible, which blocks
the evaluation done by `decide`; restoring the default reducibility is
purely an elaboration concern and changes no definition. -/
set_option allowUnsafeReducibility true in
attribute [semireducible] Rat.add Rat.sub Rat.mul Rat.div Rat.inv Rat.neg Rat.ofScientific

/-! Shallow embedding of the workout generation engine of this repository
(app/services/workout_generator_1.py, app/services/exercise_filter.py,
app/utils/bmi_calculator.py, app/core/constants.py), together with proofs
about the claims of the specification.

Modelling conventions:
- a MongoDB document of the exercise catalog becomes the `Exercise`
  structure; a collection is a `List Exercise`; `find(query)` is an
  order-preserving filter and `limit(n)` keeps the first `n` elements,
  with the PyMongo convention that `limit(0)` means no limit;
- Python floats are modelled as exact rationals;
- `random.uniform`, `random.randint` and `random.choice` are modelled as
  explicit oracle parameters, so that theorems quantify over every
  possible draw;
- Python dicts used as records become structures; dicts used as maps
  become association lists with `dictGet` / `dictSet` helpers that have
  the same lookup semantics as dict indexing (last assignment wins);
- optional document fields (such as `exercise_id_clean`, which the code
  reads through `.get` with a fallback) are `Option`; text fields that
  the code treats as always present are plain `String` with a missing
  field modelled as the empty string. -/

namespace WorkoutGen

/-! ## Generic helpers: substring tests, dictionaries, stable sorting -/

/-- Test whether the first list is a prefix of the second. -/
def isPrefixCh : List Char → List Char → Bool
  | [], _ => true
  | _ :: _, [] => false
  | a :: as, b :: bs => a == b && isPrefixCh as bs

/-- Test whether `needle` occurs as a contiguous sublist of the argument. -/
def isInfixCh (needle : List Char) : List Char → Bool
  | [] => isPrefixCh needle []
  | c :: cs => isPrefixCh needle (c :: cs) || isInfixCh needle cs

/-- Python `needle in hay` on strings: contiguous substring test. -/
def containsSub (hay needle : String) : Bool :=
  isInfixCh needle.data hay.data

/-- Python `str.lower()` (the engine only lowercases ASCII catalog text;
this maps the characters directly, which the kernel can evaluate). -/
def lowerStr (s : String) : String :=
  ⟨s.data.map Char.toLower⟩

/-- Case-insensitive substring test: models both `keyword in title.lower()`
with lowercase keywords and a case-insensitive regex alternation match. -/
def containsCI (hay needle : String) : Bool :=
  containsSub (lowerStr hay) (lowerStr needle)

/-- Python `title.lower().replace(" ", "-")`. -/
def slugOf (title : String) : String :=
  ⟨(lowerStr title).data.map (fun c => if c == ' ' then '-' else c)⟩

/-- Python `d.get(k, default)` on an association list. -/
def dictGet (l : List (String × α)) (k : String) (d : α) : α :=
  match l.find? (fun p => p.1 == k) with
  | some p => p.2
  | none => d

/-- Python `d[k] = v`: observationally equivalent update of an association
list (the new binding shadows any previous binding of the same key). -/
def dictSet (l : List (String × α)) (k : String) (v : α) : List (String × α) :=
  (k, v) :: l.filter (fun p => !(p.1 == k))

/-- Python dict comprehension over a pair list (later pairs win). -/
def dictOfPairs (l : List (String × α)) : List (String × α) :=
  l.foldl (fun acc p => dictSet acc p.1 p.2) []

/-- Insert into a sorted list, before the first element that compares
greater-or-equal; together with `sortBy` this is a stable sort, which is
exactly the observable behaviour of the stable Python `list.sort`. -/
def insertSorted (le : α → α → Bool) (x : α) : List α → List α
  | [] => [x]
  | y :: ys => if le x y then x :: y :: ys else y :: insertSorted le x ys

/-- Stable insertion sort modelling Python `list.sort(key=..., reverse=...)`. -/
def sortBy (le : α → α → Bool) : List α → List α
  | [] => []
  | x :: xs => insertSorted le x (sortBy le xs)

/-- Map with the element index, used to thread per-element random draws. -/
def mapIdx (f : Nat → α → β) : Nat → List α → List β
  | _, [] => []
  | i, a :: as => f i a :: mapIdx f (i + 1) as

/-- PyMongo `cursor.limit(n)`: `limit(0)` means no limit. -/
def mongoLimit (n : Nat) (l : List α) : List α :=
  if n = 0 then l else l.take n

/-! ## Data model -/

/-- One document of the `exercises` catalog collection. -/
structure Exercise where
  title : String
  bodyPart : String
  equipment : String
  level : String
  descr : String
  exerciseIdClean : Option String
  isActive : Bool
  isBodyweight : Bool
  movementPattern : Option String
  typ : Option String
deriving DecidableEq, Repr

/-- Python `ex.get("exercise_id_clean", ex.get("Title", "").lower().replace(" ", "-"))`. -/
def exId (e : Exercise) : String :=
  match e.exerciseIdClean with
  | some v => v
  | none => slugOf e.title

/-- The user snapshot handed to the generator (fields the engine reads). -/
structure UserSnapshot where
  userId : String
  primaryGoal : String
  fitnessLevel : String
  equipmentList : List String
  bmiCategory : String
  injuryTypes : List String
  weightKg : ℚ
  heightCm : ℚ
deriving Repr

/-- Output of `_get_ml_user_preferences`. -/
structure UserPreferences where
  avgCompletionRate : ℚ
  avgRpe : ℚ
  preferredBodyParts : List String
  bodyPartSatisfaction : List (String × ℚ)
deriving Repr

/-! ## Constants (app/core/constants.py) -/

/-- BMI_CATEGORIES: ordered band table, iterated in insertion order. -/
def bmiCategories : List (String × ℚ × ℚ) :=
  [("severe_underweight", 0, 16),
   ("moderate_underweight", 16, 17),
   ("mild_underweight", 17, 18.5),
   ("normal", 18.5, 25),
   ("overweight", 25, 30),
   ("obese", 30, 35),
   ("severe_obese", 35, 100)]

/-- BMI_SAFETY_BLACKLIST_KEYWORDS (also aliased as BMI_SAFETY_BLACKLIST). -/
def bmiSafetyBlacklistKeywords : List (String × List String) :=
  [("severe_obese",
    ["jump", "jumping", "sprint", "sprinting", "burpee", "box jump",
     "box-jump", "plyometric", "high-impact", "running", "hiit"]),
   ("obese",
    ["jump", "jumping", "sprint", "sprinting", "burpee", "box jump",
     "box-jump", "plyometric", "high-impact", "running"]),
   ("severe_underweight",
    ["heavy lifting", "max strength", "powerlifting", "1rm", "one-rep max"]),
   ("moderate_underweight",
    ["heavy lifting", "max strength", "powerlifting", "1rm"])]

/-- BMI_SAFETY_BLACKLIST_KEYWORDS.get(category, []). -/
def blacklistOf (category : String) : List String :=
  dictGet bmiSafetyBlacklistKeywords category []

/-- BMI_RPE_CAPS. -/
def bmiRpeCaps : List (String × Nat) :=
  [("severe_obese", 7), ("obese", 8), ("overweight", 9), ("normal", 10),
   ("mild_underweight", 9), ("moderate_underweight", 8), ("severe_underweight", 7)]

/-- INJURY_CONTRAINDICATIONS. -/
def injuryContraindications : List (String × List String) :=
  [("lower_back", ["deadlift", "good morning", "goodmorning", "hyperextension",
                   "heavy squat", "back extension"]),
   ("knee", ["deep squat", "lunge", "leg press", "running", "jump", "pistol", "bulgarian"]),
   ("shoulder", ["overhead press", "military press", "handstand", "dip", "snatch",
                 "jerk", "upright row"]),
   ("wrist", ["push-up", "pushup", "plank", "handstand", "front rack", "heavy press"]),
   ("ankle", ["running", "jump", "calf raise", "box jump", "sprint"]),
   ("hip", ["deep squat", "sumo", "wide stance", "split"]),
   ("elbow", ["tricep extension", "overhead", "heavy curl", "close-grip", "dip"]),
   ("neck", ["overhead", "heavy shrug", "upright row"])]

/-- INJURY_CONTRAINDICATIONS.get(injury, []). -/
def injuryContraOf (injury : String) : List String :=
  dictGet injuryContraindications injury []

/-- DAYS_OF_WEEK. -/
def daysOfWeek : List String :=
  ["monday", "tuesday", "wednesday", "thursday", "friday", "saturday", "sunday"]

/-- EXERCISE_COUNT_BY_DURATION: half-open duration buckets, in order. -/
def exerciseCountByDuration : List ((Int × Int) × Nat) :=
  [((0, 20), 3), ((20, 30), 4), ((30, 45), 5), ((45, 60), 6), ((60, 90), 8), ((90, 999), 10)]

/-- SETS_REPS_RANGES: (fitness level, goal) to ((sets lo, hi), (reps lo, hi)). -/
def setsRepsRanges : List (String × List (String × ((Nat × Nat) × (Nat × Nat)))) :=
  [("Beginner",
    [("weight_loss", ((2, 3), (12, 15))), ("muscle_gain", ((3, 4), (8, 12))),
     ("strength", ((3, 4), (5, 8))), ("endurance", ((2, 3), (15, 20))),
     ("general_fitness", ((2, 3), (10, 15))), ("athletic", ((3, 4), (6, 10)))]),
   ("Intermediate",
    [("weight_loss", ((3, 4), (12, 15))), ("muscle_gain", ((3, 5), (8, 12))),
     ("strength", ((4, 5), (4, 6))), ("endurance", ((3, 4), (15, 20))),
     ("general_fitness", ((3, 4), (10, 12))), ("athletic", ((4, 5), (5, 8)))]),
   ("Expert",
    [("weight_loss", ((4, 5), (12, 15))), ("muscle_gain", ((4, 6), (6, 12))),
     ("strength", ((5, 6), (3, 5))), ("endurance", ((4, 5), (15, 25))),
     ("general_fitness", ((4, 5), (10, 12))), ("athletic", ((5, 6), (4, 8)))])]

/-- REST_PERIODS in seconds by fitness level and rest category. -/
def restPeriods : List (String × List (String × Int)) :=
  [("Beginner", [("strength", 120), ("hypertrophy", 60), ("endurance", 45)]),
   ("Intermediate", [("strength", 150), ("hypertrophy", 90), ("endurance", 60)]),
   ("Expert", [("strength", 180), ("hypertrophy", 90), ("endurance", 60)])]

/-- MOTIVATION_TEMPLATES. -/
def motivationTemplates : List (String × List String) :=
  [("high",
    ["You\x27re crushing it — keep the momentum!",
     "Another week, another PR incoming.",
     "Your consistency is paying off.",
     "Solid work — aim for crisp reps; you\x27re one step closer.",
     "You\x27ve got this — push for that extra set.",
     "On fire! Let\x27s build on this streak.",
     "This is what dedication looks like. Proud of you!"]),
   ("neutral",
    ["Solid work — aim for crisp reps; you\x27re one step closer.",
     "Small wins add up — stay consistent.",
     "Focus on form today.",
     "One step closer to your goals.",
     "Quality over quantity — nail each rep.",
     "Steady progress beats perfection.",
     "Every rep counts. Every set matters.",
     "Show up and do the work. That\x27s all that matters."]),
   ("low",
    ["Short session today — just show up.",
     "Any movement is progress.",
     "Start light — consistency beats perfection.",
     "Take it easy today — recovery matters.",
     "Baby steps — you\x27ve got this.",
     "Tough week, but you showed up. That\x27s what counts.",
     "Every journey has ups and downs. Keep pushing.",
     "It\x27s okay to struggle. Just don\x27t quit."])]

/-! ## BMI utilities (app/utils/bmi_calculator.py) -/

/-- Python `round` to the nearest integer, ties to even, on an exact rational. -/
def roundHalfEven (q : ℚ) : Int :=
  let f := ⌊q⌋
  let r := q - (f : ℚ)
  if r < 1/2 then f
  else if 1/2 < r then f + 1
  else if f % 2 = 0 then f else f + 1

/-- compute_bmi: weight / (height in metres squared), rounded to 2 decimals. -/
def computeBmi (weightKg heightCm : ℚ) : ℚ :=
  let heightM := heightCm / 100
  let bmi := weightKg / (heightM * heightM)
  (roundHalfEven (bmi * 100) : ℚ) / 100

/-- get_bmi_category: first band with min <= bmi < max, else "normal". -/
def getBmiCategory (bmi : ℚ) : String :=
  match bmiCategories.find? (fun c => decide (c.2.1 ≤ bmi ∧ bmi < c.2.2)) with
  | some c => c.1
  | none => "normal"

/-! ## Query model for the catalog collection

`_apply_cascade_fallback` builds one mutable query dict.  Its `Title`
entry goes through the states: absent; `{"$nin": excluded}`;
`{"$nin": excluded, "$not": {"$regex": kw1|kw2|..., "$options": "i"}}`;
`{"$not": {...}}` (the injury branch overwrites a plain `$nin` entry).
`TitleCond` mirrors exactly these four shapes. -/

inductive TitleCond where
  | absent : TitleCond
  | nin : List String → TitleCond
  | ninNot : List String → List String → TitleCond
  | notOnly : List String → TitleCond
deriving DecidableEq, Repr

/-- Condition on a plain string field: exact equality or `$in` a list. -/
inductive StrCond where
  | eqTo : String → StrCond
  | isIn : List String → StrCond
deriving DecidableEq, Repr

/-- The shape of every query the generator issues against the catalog
(all of them also require `is_active: True`). -/
structure GenQuery where
  idNin : List String
  titleCond : TitleCond
  levelCond : StrCond
  equipCond : StrCond
deriving DecidableEq, Repr

/-- Satisfaction of the `Title` entry: `$nin` is exact (case-sensitive)
mismatch against every listed value, `$not`+`$regex` with the i option is
the negation of a case-insensitive substring match of any alternative. -/
def titleCondSat (t : TitleCond) (title : String) : Bool :=
  match t with
  | .absent => true
  | .nin l => !(l.contains title)
  | .ninNot l kws => !(l.contains title) && kws.all (fun kw => !(containsCI title kw))
  | .notOnly kws => kws.all (fun kw => !(containsCI title kw))

/-- Satisfaction of a string-field condition. -/
def strCondSat (c : StrCond) (v : String) : Bool :=
  match c with
  | .eqTo s => v == s
  | .isIn l => l.contains v

/-- Mongo `$nin` on the optional `exercise_id_clean` field: a document
missing the field always satisfies `$nin` of a list of strings. -/
def idNinSat (l : List String) (e : Exercise) : Bool :=
  match e.exerciseIdClean with
  | some v => !(l.contains v)
  | none => true

/-- Whether a catalog document matches a generator query. -/
def matchesQuery (q : GenQuery) (e : Exercise) : Bool :=
  idNinSat q.idNin e && titleCondSat q.titleCond e.title
    && strCondSat q.levelCond e.level && strCondSat q.equipCond e.equipment
    && e.isActive

/-- `collection.find(query)` over the catalog list. -/
def mongoFind (catalog : List Exercise) (q : GenQuery) : List Exercise :=
  catalog.filter (matchesQuery q)

/-! ## Cascade fallback (_apply_cascade_fallback) -/

/-- The initial `Title` entry of the exclusion query (present only when
the exclusion list is non-empty). -/
def exclTitleCond (excluded : List String) : TitleCond :=
  if excluded.isEmpty then .absent else .nin excluded

/-- Applying the BMI blacklist: sets or extends the `$not` regex. -/
def addBmiBlacklist (t : TitleCond) (blacklist : List String) : TitleCond :=
  if blacklist.isEmpty then t
  else
    match t with
    | .absent => .notOnly blacklist
    | .nin l => .ninNot l blacklist
    | .ninNot l kws => .ninNot l (kws ++ blacklist)
    | .notOnly kws => .notOnly (kws ++ blacklist)

/-- One injury keyword: appended to an existing `$not` regex, otherwise
the whole `Title` entry is overwritten with `{"$not": {kw}}` (this drops a
plain `$nin` entry, exactly as the source does). -/
def addInjuryKeyword (t : TitleCond) (kw : String) : TitleCond :=
  match t with
  | .ninNot l kws => .ninNot l (kws ++ [kw])
  | .notOnly kws => .notOnly (kws ++ [kw])
  | .absent => .notOnly [kw]
  | .nin _ => .notOnly [kw]

/-- The loop over injury types and their contraindication keywords. -/
def addInjuries (t : TitleCond) (injuries : List String) : TitleCond :=
  injuries.foldl (fun acc inj => (injuryContraOf inj).foldl addInjuryKeyword acc) t

/-- The level-1 (perfect match) query. -/
def level1Query (user : UserSnapshot) (excluded : List String) : GenQuery :=
  { idNin := if excluded.isEmpty then [] else excluded
    titleCond := addInjuries
      (addBmiBlacklist (exclTitleCond excluded) (blacklistOf user.bmiCategory))
      user.injuryTypes
    levelCond := .eqTo user.fitnessLevel
    equipCond := .isIn user.equipmentList }

/-- Level 2 relaxes equipment in place. -/
def level2Query (q : GenQuery) (user : UserSnapshot) : GenQuery :=
  { q with equipCond := .isIn (user.equipmentList ++ ["Bodyweight", "Dumbbell"]) }

/-- The level map and the adjacent levels for level-3 relaxation. -/
def adjacentLevels (fitnessLevel : String) : List String :=
  let levelMap : List (String × Int) := [("Beginner", 1), ("Intermediate", 2), ("Expert", 3)]
  let userLevelNum := dictGet levelMap fitnessLevel 2
  (levelMap.filter (fun p => (p.2 - userLevelNum).natAbs ≤ 1)).map (fun p => p.1)

/-- Level 3 widens the level condition in place. -/
def level3Query (q : GenQuery) (user : UserSnapshot) : GenQuery :=
  { q with levelCond := .isIn (adjacentLevels user.fitnessLevel) }

/-- Level 5 pops the `Title` entry (dropping both the BMI blacklist and
the injury keywords, and any `$nin` exclusion riding on `Title`). -/
def level5Query (q : GenQuery) : GenQuery :=
  { q with titleCond := .absent }

/-- The five hardcoded exercises of `_get_hardcoded_fallback` (fields the
dicts do not carry are modelled as absent / empty / false). -/
def hardcodedFallback : List Exercise :=
  [{ title := "Push-ups", bodyPart := "Chest", equipment := "Bodyweight", level := "Beginner",
     descr := "", exerciseIdClean := some "pushups", isActive := false, isBodyweight := false,
     movementPattern := none, typ := none },
   { title := "Bodyweight Squats", bodyPart := "Legs", equipment := "Bodyweight",
     level := "Beginner", descr := "", exerciseIdClean := some "squats", isActive := false,
     isBodyweight := false, movementPattern := none, typ := none },
   { title := "Plank", bodyPart := "Core", equipment := "Bodyweight", level := "Beginner",
     descr := "", exerciseIdClean := some "plank", isActive := false, isBodyweight := false,
     movementPattern := none, typ := none },
   { title := "Lunges", bodyPart := "Legs", equipment := "Bodyweight", level := "Beginner",
     descr := "", exerciseIdClean := some "lunges", isActive := false, isBodyweight := false,
     movementPattern := none, typ := none },
   { title := "Mountain Climbers", bodyPart := "Core", equipment := "Bodyweight",
     level := "Intermediate", descr := "", exerciseIdClean := some "mountain-climbers",
     isActive := false, isBodyweight := false, movementPattern := none, typ := none }]

/-- The query of `_get_emergency_exercises`. -/
def emergencyQuery (excluded : List String) : GenQuery :=
  { idNin := if excluded.isEmpty then [] else excluded
    titleCond := if excluded.isEmpty then .absent else .nin excluded
    levelCond := .isIn ["Beginner", "Intermediate"]
    equipCond := .eqTo "Bodyweight" }

/-- The catalog part of `_get_emergency_exercises` (limit 20). -/
def emergencyQueryPool (catalog : List Exercise) (excluded : List String) : List Exercise :=
  mongoLimit 20 (mongoFind catalog (emergencyQuery excluded))

/-- `_get_emergency_exercises`: bodyweight query, hardcoded set when the
catalog query comes back empty. -/
def getEmergencyExercises (catalog : List Exercise) (excluded : List String) : List Exercise :=
  let exercises := emergencyQueryPool catalog excluded
  if exercises.isEmpty then hardcodedFallback else exercises

/-- The candidate pool each cascade level would see, sharing the exact
query builders the cascade itself uses (level 4 reruns the level-3 query:
the source computes a related-goal set and never uses it). -/
def levelPool (catalog : List Exercise) (user : UserSnapshot) (minEx : Nat)
    (excluded : List String) : Nat → List Exercise :=
  fun i =>
    let q1 := level1Query user excluded
    let q2 := level2Query q1 user
    let q3 := level3Query q2 user
    let q5 := level5Query q3
    match i with
    | 0 => mongoLimit (minEx * 2) (mongoFind catalog q1)
    | 1 => mongoLimit (minEx * 2) (mongoFind catalog q2)
    | 2 => mongoLimit (minEx * 2) (mongoFind catalog q3)
    | 3 => mongoLimit (minEx * 2) (mongoFind catalog q3)
    | 4 => mongoLimit (minEx * 2) (mongoFind catalog q5)
    | _ => getEmergencyExercises catalog excluded

/-- The six cascade level labels, in order. -/
def levelName (i : Nat) : String :=
  (["perfect", "equipment_relaxed", "difficulty_relaxed", "related_goals",
    "bmi_relaxed"].getD i "emergency_bodyweight")

/-- `_apply_cascade_fallback`: six-level constraint relaxation.  Each level
issues `find(query).limit(min_exercises * 2)` and succeeds when the result
length reaches `min_exercises`.  At level 4 the source computes
`related_goals = goal_groups.get(goal, [])` and then reruns the unchanged
query, so the related-goal set never influences the result. -/
def applyCascadeFallback (catalog : List Exercise) (user : UserSnapshot) (minEx : Nat)
    (excluded : List String) : List Exercise × String :=
  let q1 := level1Query user excluded
  let e1 := mongoLimit (minEx * 2) (mongoFind catalog q1)
  if minEx ≤ e1.length then (e1, "perfect")
  else
    let q2 := level2Query q1 user
    let e2 := mongoLimit (minEx * 2) (mongoFind catalog q2)
    if minEx ≤ e2.length then (e2, "equipment_relaxed")
    else
      let q3 := level3Query q2 user
      let e3 := mongoLimit (minEx * 2) (mongoFind catalog q3)
      if minEx ≤ e3.length then (e3, "difficulty_relaxed")
      else
        let e4 := mongoLimit (minEx * 2) (mongoFind catalog q3)
        if minEx ≤ e4.length then (e4, "related_goals")
        else
          let q5 := level5Query q3
          let e5 := mongoLimit (minEx * 2) (mongoFind catalog q5)
          if minEx ≤ e5.length then (e5, "bmi_relaxed")
          else
            (getEmergencyExercises catalog excluded, "emergency_bodyweight")

/-! ## Anti-repetition history (WorkoutHistoryManager.get_recent_exercise_ids)

A history record is modelled as (exercise id, days since last use); the
store query keeps records with `last_used >= now - days`, sorts most
recent first (ascending days-ago) and limits to 100; the ranks of the
surviving records give the recency scores `1 - rank / total`. -/

def getRecentPairs (history : List (String × ℚ)) (days : ℚ) : List (String × ℚ) :=
  let h := (sortBy (fun a b => decide (a.2 ≤ b.2))
    (history.filter (fun p => decide (p.2 ≤ days)))).take 100
  mapIdx (fun i p => (p.1, 1 - (i : ℚ) / (h.length : ℚ))) 0 h

/-! ## Scoring and selection (_score_and_select_exercises) -/

/-- The score of one candidate: base 1.0, squared recency penalty times
0.8, preferred body part +0.2, equipment match +0.15, satisfaction times
0.1, plus the uniform(0, 0.05) jitter draw for this candidate. -/
def scoreOf (user : UserSnapshot) (prefs : UserPreferences)
    (recencyMap : List (String × ℚ)) (jitter : ℚ) (ex : Exercise) : ℚ :=
  let s0 : ℚ := 1
  let s1 :=
    match (recencyMap.find? (fun p => p.1 == exId ex)) with
    | some p => s0 - p.2 * p.2 * 0.8
    | none => s0
  let exBodyPart := lowerStr ex.bodyPart
  let s2 := if prefs.preferredBodyParts.contains exBodyPart then s1 + 0.2 else s1
  let s3 := if user.equipmentList.contains ex.equipment then s2 + 0.15 else s2
  let s4 := s3 + (dictGet prefs.bodyPartSatisfaction exBodyPart 0) * 0.1
  s4 + jitter

/-- First selection pass: greedy top-down with a 2-per-body-part cap,
stopping once `count` exercises are selected. -/
def selectCapped (scored : List (Exercise × ℚ)) (count : Nat)
    (selected : List Exercise) (usedBodyParts : List (String × Nat)) : List Exercise :=
  match scored with
  | [] => selected
  | (ex, _) :: rest =>
    if count ≤ selected.length then selected
    else
      let bodyPart := lowerStr ex.bodyPart
      let bpCount := dictGet usedBodyParts bodyPart 0
      if bpCount < 2 then
        selectCapped rest count (selected ++ [ex]) (dictSet usedBodyParts bodyPart (bpCount + 1))
      else
        selectCapped rest count selected usedBodyParts

/-- Second pass: when the cap starved the selection, fill the remaining
slots in score order regardless of body part. -/
def relaxFill (scored : List (Exercise × ℚ)) (count : Nat)
    (selected : List Exercise) : List Exercise :=
  match scored with
  | [] => selected
  | (ex, _) :: rest =>
    if selected.contains ex then relaxFill rest count selected
    else
      let selected2 := selected ++ [ex]
      if count ≤ selected2.length then selected2 else relaxFill rest count selected2

/-- The descending, stable sort key used on (exercise, score) pairs. -/
def scoreDesc (a b : Exercise × ℚ) : Bool :=
  decide (b.2 ≤ a.2)

/-- `_score_and_select_exercises` (the `excluded_ids` argument of the
source is accepted and never used, exactly as in the source). -/
def scoreAndSelect (exercises : List Exercise) (user : UserSnapshot)
    (_excludedIds : List String) (recencyMap : List (String × ℚ))
    (prefs : UserPreferences) (jitter : Nat → ℚ) (count : Nat) : List Exercise :=
  let scored := mapIdx (fun i ex => (ex, scoreOf user prefs recencyMap (jitter i) ex)) 0 exercises
  let sorted := sortBy scoreDesc scored
  let sel1 := selectCapped sorted count [] []
  if sel1.length < count then relaxFill sorted count sel1 else sel1

/-! ## Exercise detail building (_build_exercise_detail and helpers) -/

/-- One emitted exercise slot. -/
structure ExerciseDetail where
  id : String
  name : String
  bodyPart : String
  equipmentRequired : String
  sets : Option Nat
  reps : Option Nat
  durationSecs : Option Int
  restSeconds : Int
  predictedRpeRange : Nat × Nat
  notes : String
  tags : List String
deriving DecidableEq, Repr

/-- `_generate_exercise_notes`. -/
def generateExerciseNotes (ex : Exercise) (user : UserSnapshot) : String :=
  let titleLower := lowerStr ex.title
  let injuries := user.injuryTypes
  let n1 : List String :=
    if injuries.contains "knee"
        && (["squat", "lunge", "jump"].any (fun w => containsSub titleLower w)) then
      ["Keep knees tracking over toes. Stop if pain occurs."]
    else []
  let n2 :=
    if injuries.contains "lower_back"
        && (["deadlift", "row", "squat"].any (fun w => containsSub titleLower w)) then
      n1 ++ ["Maintain neutral spine. Engage core. Consider substituting if pain."]
    else n1
  let n3 :=
    if injuries.contains "shoulder"
        && (["press", "overhead", "raise"].any (fun w => containsSub titleLower w)) then
      n2 ++ ["Reduce range of motion if discomfort. Use lighter weight."]
    else n2
  let n4 :=
    if injuries.contains "wrist"
        && (["push", "plank", "press"].any (fun w => containsSub titleLower w)) then
      n3 ++ ["Use wrist wraps or modify hand position."]
    else n3
  let notes :=
    if n4.isEmpty then ["Focus on controlled movement and proper form."] else n4
  String.intercalate " " notes

/-- `_build_exercise_detail`; `setsDraw` and `repsDraw` model the
`random.randint` calls for this exercise (applied to the final bounds). -/
def buildExerciseDetail (ex : Exercise) (user : UserSnapshot) (prefs : UserPreferences)
    (setsDraw repsDraw : Nat → Nat → Nat) : ExerciseDetail :=
  let ranges := dictGet (dictGet setsRepsRanges user.fitnessLevel []) user.primaryGoal
    ((3, 4), (10, 12))
  let completionRate := prefs.avgCompletionRate
  let ranges2 :=
    if completionRate < 0.7 then ((ranges.1.1, ranges.1.2 - 1), ranges.2)
    else if 0.95 < completionRate then ((ranges.1.1, min 6 (ranges.1.2 + 1)), ranges.2)
    else ranges
  let sets := setsDraw ranges2.1.1 ranges2.1.2
  let reps := repsDraw ranges2.2.1 ranges2.2.2
  let restCategory :=
    if user.primaryGoal == "muscle_gain" then "hypertrophy"
    else if user.primaryGoal == "strength" then "strength"
    else "endurance"
  let rest0 := dictGet (dictGet restPeriods user.fitnessLevel []) restCategory 60
  let avgRpe := prefs.avgRpe
  let rest1 :=
    if 8.5 < avgRpe then rest0 + 15
    else if avgRpe < 6 then max 30 (rest0 - 15)
    else rest0
  let rpeCap := dictGet bmiRpeCaps user.bmiCategory 10
  let rpeMax := min 9 rpeCap
  let tags :=
    (match ex.movementPattern with
     | some m => if m = "" then [] else [m]
     | none => []) ++
    (match ex.typ with
     | some t => if t = "" then [] else [lowerStr t]
     | none => [])
  { id := exId ex
    name := if ex.title = "" then "Unknown Exercise" else ex.title
    bodyPart := ex.bodyPart
    equipmentRequired := if ex.equipment = "" then "Bodyweight" else ex.equipment
    sets := some sets
    reps := some reps
    durationSecs := none
    restSeconds := rest1
    predictedRpeRange := (6, rpeMax)
    notes := generateExerciseNotes ex user
    tags := tags }

/-- `_build_warmup` (the argument is the warmup allocation in minutes,
passed through unchanged, exactly as the source does). -/
def buildWarmup (duration : Nat) : List ExerciseDetail :=
  [{ id := "warmup_mobility", name := "Joint Mobility Flow", bodyPart := "Full Body",
     equipmentRequired := "Bodyweight", sets := none, reps := none,
     durationSecs := some (min 120 ((duration : Int) / 2)), restSeconds := 0,
     predictedRpeRange := (2, 3),
     notes := "Neck rolls, arm circles, hip circles, leg swings",
     tags := ["warmup", "mobility"] },
   { id := "warmup_cardio", name := "Light Cardio", bodyPart := "Full Body",
     equipmentRequired := "Bodyweight", sets := none, reps := none,
     durationSecs := some (max 180 ((duration : Int) - 120)), restSeconds := 0,
     predictedRpeRange := (3, 4),
     notes := "Marching in place, jumping jacks, or light jogging",
     tags := ["warmup", "cardio"] }]

/-- `_build_cooldown`. -/
def buildCooldown (duration : Nat) : List ExerciseDetail :=
  [{ id := "cooldown_stretch", name := "Full Body Stretch", bodyPart := "Full Body",
     equipmentRequired := "Bodyweight", sets := none, reps := none,
     durationSecs := some (duration : Int), restSeconds := 0,
     predictedRpeRange := (1, 2),
     notes := "Hold each stretch 20-30 seconds. Focus on worked muscle groups.",
     tags := ["cooldown", "flexibility"] }]

/-! ## Day plan assembly (_generate_day_plan and helpers) -/

/-- Python `max(5, int(duration * DURATION_ALLOCATION["warmup"]))`. -/
def warmupDurationOf (duration : Nat) : Nat :=
  max 5 (((duration : ℚ) * 0.15).floor.toNat)

/-- Python `max(3, int(duration * DURATION_ALLOCATION["cooldown"]))`. -/
def cooldownDurationOf (duration : Nat) : Nat :=
  max 3 (((duration : ℚ) * 0.10).floor.toNat)

/-- The remaining main-section minutes (may be negative in Python for
tiny durations, hence `Int`). -/
def mainDurationOf (duration : Nat) : Int :=
  (duration : Int) - (warmupDurationOf duration : Int) - (cooldownDurationOf duration : Int)

/-- `_get_exercise_count`: first matching duration bucket, else 5. -/
def getExerciseCount (duration : Int) : Nat :=
  match exerciseCountByDuration.find?
      (fun b => decide (b.1.1 ≤ duration ∧ duration < b.1.2)) with
  | some b => b.2
  | none => 5

/-- `_compute_motivation_score`; the history summary carries the optional
`last_7_completions` and `avg_satisfaction_7d` entries. -/
def computeMotivationScore (historySummary : Option (Option ℚ × Option ℚ)) : ℚ :=
  match historySummary with
  | none => 0
  | some (c, s) =>
    let completion := c.getD 0.5
    let satisfaction := s.getD 5
    let satisfactionNorm := (satisfaction - 5) / 5
    let motivation := completion * 0.6 + satisfactionNorm * 0.4
    max (-1) (min 1 motivation)

/-- `_get_motivation_message`; `choiceIdx` models the `random.choice`
draw as an index reduced modulo the template count. -/
def getMotivationMessage (motivationScore : ℚ) (choiceIdx : Nat) : String :=
  let category :=
    if 0.3 < motivationScore then "high"
    else if motivationScore < -0.3 then "low"
    else "neutral"
  let fallback := dictGet motivationTemplates "neutral"
    ["Solid work â€” aim for crisp reps; you\x27re one step closer."]
  let messages := dictGet motivationTemplates category fallback
  messages.getD (choiceIdx % messages.length) ""

/-- One generated day. -/
structure DayPlan where
  targetDuration : Nat
  warmup : List ExerciseDetail
  main : List ExerciseDetail
  cooldown : List ExerciseDetail
  motivation : String
deriving DecidableEq, Repr

/-- `_create_rest_day`. -/
def createRestDay : DayPlan :=
  { targetDuration := 0, warmup := [], main := [], cooldown := []
    motivation := "Rest and recovery day. Your body grows stronger during rest." }

/-- The per-day random draws: the jitter stream of the scorer, the
`randint` draws for sets and reps of the selected exercise at each index,
and the `random.choice` index of the motivation message. -/
structure DayRng where
  jitter : Nat → ℚ
  setsDraw : Nat → Nat → Nat → Nat
  repsDraw : Nat → Nat → Nat → Nat
  msgIdx : Nat

/-- The per-day generation context (inputs that do not change across the
days of one weekly generation). -/
structure DayCtx where
  catalog : List Exercise
  user : UserSnapshot
  recencyMap : List (String × ℚ)
  prefs : UserPreferences
  motivationScore : ℚ

/-- The candidate pool and fallback label of one day: the cascade result,
overridden by the emergency exercises when the pool came back empty (the
`if not exercises` guard of `_generate_day_plan`). -/
def dayPoolFallback (ctx : DayCtx) (minEx : Nat) (excluded : List String) :
    List Exercise × String :=
  let r := applyCascadeFallback ctx.catalog ctx.user minEx excluded
  if r.1.isEmpty then (getEmergencyExercises ctx.catalog excluded, "emergency_bodyweight")
  else r

/-- The main exercises selected for a day of the given duration. -/
def daySelected (ctx : DayCtx) (duration : Nat) (excluded : List String)
    (rng : DayRng) : List Exercise :=
  let mainCount := getExerciseCount (mainDurationOf duration)
  let pool := (dayPoolFallback ctx (mainCount * 3) excluded).1
  scoreAndSelect pool ctx.user excluded ctx.recencyMap ctx.prefs rng.jitter mainCount

/-- `_generate_day_plan`: duration split, cascade, scoring/selection,
detail building, warmup/cooldown and motivation message. -/
def generateDayPlan (ctx : DayCtx) (duration : Nat) (excluded : List String)
    (rng : DayRng) : DayPlan × String :=
  let warmupDuration := warmupDurationOf duration
  let cooldownDuration := cooldownDurationOf duration
  let mainCount := getExerciseCount (mainDurationOf duration)
  let fallback := (dayPoolFallback ctx (mainCount * 3) excluded).2
  let selected := daySelected ctx duration excluded rng
  let mains := mapIdx
    (fun i ex => buildExerciseDetail ex ctx.user ctx.prefs (rng.setsDraw i) (rng.repsDraw i))
    0 selected
  ({ targetDuration := duration
     warmup := buildWarmup warmupDuration
     main := mains
     cooldown := buildCooldown cooldownDuration
     motivation := getMotivationMessage ctx.motivationScore rng.msgIdx }, fallback)

/-! ## Weekly plan assembly (generate_weekly_plan) with store events -/

/-- The externally visible store operations of one generation call, in
order: a day structure is built (pure), the workout document is inserted,
a usage record is upserted. -/
inductive StoreEvent where
  | dayBuilt : String → StoreEvent
  | workoutInserted : StoreEvent
  | usageUpserted : String → StoreEvent
deriving DecidableEq, Repr

/-- `_get_ml_user_preferences`: the session log query is modelled by its
result, a list of optional `completion_percent` values (at most 30,
already sorted by the store). -/
def mlUserPreferences (sessionLogs : List (Option ℚ)) : UserPreferences :=
  if sessionLogs.isEmpty then
    { avgCompletionRate := 0.8, avgRpe := 7, preferredBodyParts := []
      bodyPartSatisfaction := [] }
  else
    let completions := sessionLogs.map (fun o => o.getD 0.8)
    let avgCompletion :=
      if completions.isEmpty then 0.8
      else completions.foldl (· + ·) 0 / (completions.length : ℚ)
    { avgCompletionRate := avgCompletion, avgRpe := 7, preferredBodyParts := []
      bodyPartSatisfaction := [] }

/-- The day loop of `generate_weekly_plan`.  The accumulator keeps, per
processed day, (day name, day plan, fallback label), the main exercise
ids used so far this week, and the event trace.  The per-day
`try/except` of the source cannot fire in the pure embedding (every
embedded operation is total), so the `"error"` rest-day branch is dead
here. -/
def weekLoop (ctx : DayCtx) (rng : Nat → DayRng) (durations : List (String × Nat))
    (recentIds : List String) :
    List String → Nat → List (String × DayPlan × String) → List String → List StoreEvent →
    List (String × DayPlan × String) × List String × List StoreEvent
  | [], _, acc, weekIds, events => (acc, weekIds, events)
  | day :: rest, i, acc, weekIds, events =>
    let duration := dictGet durations day 0
    if duration = 0 then
      weekLoop ctx rng durations recentIds rest (i + 1)
        (acc ++ [(day, createRestDay, "rest")]) weekIds (events ++ [.dayBuilt day])
    else
      let r := generateDayPlan ctx duration (recentIds ++ weekIds) (rng i)
      weekLoop ctx rng durations recentIds rest (i + 1)
        (acc ++ [(day, r.1, r.2)])
        (weekIds ++ r.1.main.map (fun d => d.id))
        (events ++ [.dayBuilt day])

/-- The generated weekly plan document (fields the claims speak about;
timestamps and constant metadata are outside the model). -/
structure WeeklyPlan where
  userId : String
  weekStartIso : String
  bmi : ℚ
  bmiCategory : String
  days : List (String × DayPlan)
  fallbacksUsed : List (String × String)
deriving Repr

/-- The synthetic warmup/cooldown ids that are never written to history. -/
def syntheticIds : List String :=
  ["warmup_mobility", "warmup_cardio", "cooldown_stretch"]

/-- `WorkoutHistoryManager._extract_exercise_ids`: every main exercise id
of every day, keeping only truthy ids outside the synthetic set. -/
def extractExerciseIds (plan : WeeklyPlan) : List String :=
  plan.days.foldl
    (fun acc dp =>
      acc ++ (dp.2.main.map (fun d => d.id)).filter
        (fun i => !(i == "") && !(syntheticIds.contains i)))
    []

/-- The day context one weekly generation computes before its day loop:
the snapshot BMI category is overwritten with the computed one, and the
recency data comes from the 14-day history. -/
def weekCtx (catalog : List Exercise) (user : UserSnapshot)
    (history : List (String × ℚ)) (sessionLogs : List (Option ℚ))
    (historySummary : Option (Option ℚ × Option ℚ)) : DayCtx :=
  let bmi := computeBmi user.weightKg user.heightCm
  let bmiCategory := getBmiCategory bmi
  let user2 := { user with bmiCategory := bmiCategory }
  let recentPairs := getRecentPairs history 14
  let recencyMap := dictOfPairs recentPairs
  let prefs := mlUserPreferences sessionLogs
  let motivationScore := computeMotivationScore historySummary
  { catalog := catalog, user := user2, recencyMap := recencyMap, prefs := prefs
    motivationScore := motivationScore }

/-- The whole day loop of one weekly generation: per-day entries
(day name, day plan, fallback label), the main ids used this week, and
the build part of the event trace. -/
def weekRun (catalog : List Exercise) (user : UserSnapshot)
    (history : List (String × ℚ)) (sessionLogs : List (Option ℚ))
    (historySummary : Option (Option ℚ × Option ℚ))
    (durations : List (String × Nat)) (rng : Nat → DayRng) :
    List (String × DayPlan × String) × List String × List StoreEvent :=
  let ctx := weekCtx catalog user history sessionLogs historySummary
  let recentIds := (getRecentPairs history 14).map (fun p => p.1)
  weekLoop ctx rng durations recentIds daysOfWeek 0 [] [] []

/-- The per-day entries of one weekly generation (day name, day plan,
fallback label), before they are split into the two output maps. -/
def weekEntries (catalog : List Exercise) (user : UserSnapshot)
    (history : List (String × ℚ)) (sessionLogs : List (Option ℚ))
    (historySummary : Option (Option ℚ × Option ℚ))
    (durations : List (String × Nat)) (rng : Nat → DayRng) :
    List (String × DayPlan × String) :=
  (weekRun catalog user history sessionLogs historySummary durations rng).1

/-- `generate_weekly_plan`: computes BMI and category, reads the 14-day
history, generates the 7 days, and only then saves the workout document
and upserts the usage history of every extracted main exercise id.  The
returned event trace makes the ordering of the side effects explicit. -/
def generateWeeklyPlan (catalog : List Exercise) (user : UserSnapshot)
    (weekStartIso : String) (history : List (String × ℚ)) (sessionLogs : List (Option ℚ))
    (historySummary : Option (Option ℚ × Option ℚ))
    (durations : List (String × Nat)) (rng : Nat → DayRng) :
    WeeklyPlan × List StoreEvent :=
  let bmi := computeBmi user.weightKg user.heightCm
  let bmiCategory := getBmiCategory bmi
  let run := weekRun catalog user history sessionLogs historySummary durations rng
  let entries := run.1
  let plan : WeeklyPlan :=
    { userId := user.userId, weekStartIso := weekStartIso, bmi := bmi
      bmiCategory := bmiCategory
      days := entries.map (fun e => (e.1, e.2.1))
      fallbacksUsed := entries.map (fun e => (e.1, e.2.2)) }
  (plan, run.2.2 ++ StoreEvent.workoutInserted ::
    (extractExerciseIds plan).map StoreEvent.usageUpserted)

/-! ## Safety filter of the sibling module (ExerciseFilter.filter_for_safety)

This is the keyword filter over title and description; the specification
uses it as the meaning of the effective catalog after safety filtering. -/

def filterForSafety (candidates : List Exercise) (bmiCategory : String)
    (injuryTypes : List String) : List Exercise :=
  let bmiBlacklist := blacklistOf bmiCategory
  candidates.filter (fun ex =>
    let titleLower := lowerStr ex.title
    let descLower := lowerStr ex.descr
    bmiBlacklist.all (fun kw => !(containsSub titleLower kw || containsSub descLower kw))
      && injuryTypes.all (fun injury =>
        (injuryContraOf injury).all
          (fun kw => !(containsSub titleLower kw || containsSub descLower kw))))

/-! ## Spec-side definitions used to state claims -/

/-- Modelled from the spec wording of claim C5: the weekly requirement is
the total number of main exercises the week asks for, summed over the
active days of the requested schedule. -/
def weeklyRequirementSpec (durations : List (String × Nat)) : Nat :=
  (daysOfWeek.map (fun day =>
    let duration := dictGet durations day 0
    if duration = 0 then 0 else getExerciseCount (mainDurationOf duration))).sum

/-- The contraindication keywords of all the injuries of a user, in the
order the cascade appends them. -/
def injuryKwsOf (injuries : List String) : List String :=
  injuries.foldl (fun acc inj => acc ++ injuryContraOf inj) []

/-- The labels of cascade levels 1 to 4 (the levels that keep the
title-based safety filter). -/
def level14Names : List String :=
  ["perfect", "equipment_relaxed", "difficulty_relaxed", "related_goals"]

/-- The ids of the hardcoded terminal fallback exercises. -/
def hardcodedIds : List String :=
  ["pushups", "squats", "plank", "lunges", "mountain-climbers"]

/-! ## Helper lemmas about the generic list operations -/

theorem insertSorted_perm (le : α → α → Bool) (x : α) (l : List α) :
    List.Perm (insertSorted le x l) (x :: l) := by
  induction l with
  | nil => exact List.Perm.refl _
  | cons y ys ih =>
    simp only [insertSorted]
    split
    · exact List.Perm.refl _
    · exact (ih.cons y).trans (List.Perm.swap x y ys)

theorem sortBy_perm (le : α → α → Bool) (l : List α) : List.Perm (sortBy le l) l := by
  induction l with
  | nil => exact List.Perm.refl _
  | cons x xs ih => exact (insertSorted_perm le x (sortBy le xs)).trans (ih.cons x)

theorem mem_mapIdx {f : Nat → α → β} :
    ∀ {i : Nat} {l : List α} {b : β}, b ∈ mapIdx f i l → ∃ j a, a ∈ l ∧ b = f j a := by
  intro i l
  induction l generalizing i with
  | nil => intro b hb; simp [mapIdx] at hb
  | cons a as ih =>
    intro b hb
    simp only [mapIdx, List.mem_cons] at hb
    rcases hb with hb | hb
    · exact ⟨i, a, List.mem_cons_self a as, hb⟩
    · obtain ⟨j, a2, ha2, hb2⟩ := ih hb
      exact ⟨j, a2, List.mem_cons_of_mem a ha2, hb2⟩

theorem mapIdx_map_fst (g : Nat → α → β) :
    ∀ (i : Nat) (l : List α), (mapIdx (fun j a => (a, g j a)) i l).map Prod.fst = l := by
  intro i l
  induction l generalizing i with
  | nil => rfl
  | cons a as ih => simp [mapIdx, ih]

theorem mongoLimit_sublist (n : Nat) (l : List α) : (mongoLimit n l).Sublist l := by
  unfold mongoLimit
  split
  · exact List.Sublist.refl l
  · exact List.take_sublist n l

theorem mem_of_mem_mongoLimit {n : Nat} {l : List α} {x : α}
    (h : x ∈ mongoLimit n l) : x ∈ l :=
  (mongoLimit_sublist n l).mem h

theorem mem_of_mem_mongoFind {catalog : List Exercise} {q : GenQuery} {e : Exercise}
    (h : e ∈ mongoFind catalog q) : e ∈ catalog ∧ matchesQuery q e = true := by
  unfold mongoFind at h
  exact ⟨List.mem_of_mem_filter h, List.of_mem_filter h⟩

theorem dictGet_dictSet_self (l : List (String × α)) (k : String) (v : α) (d : α) :
    dictGet (dictSet l k v) k d = v := by
  simp [dictGet, dictSet, List.find?_cons]

theorem find_filter_ne {k k' : String} (h : k' ≠ k) :
    ∀ (l : List (String × α)),
      (l.filter (fun p => !(p.1 == k))).find? (fun p => p.1 == k') =
        l.find? (fun p => p.1 == k') := by
  intro l
  induction l with
  | nil => rfl
  | cons p ps ih =>
    by_cases hk : p.1 = k
    · have h1 : (fun p : String × α => !(p.1 == k)) p = false := by
        simp [hk]
      have h2 : (p.1 == k') = false := by
        simp [hk]
        exact fun e => (h e.symm).elim
      simp only [List.filter_cons, h1, List.find?_cons, h2, if_neg]
      simpa using ih
    · have h1 : (fun p : String × α => !(p.1 == k)) p = true := by
        simp [hk]
      simp only [List.filter_cons, h1, if_pos, List.find?_cons]
      cases hfind : (p.1 == k') with
      | true => rfl
      | false => exact ih

theorem dictGet_dictSet_ne {l : List (String × α)} {k k' : String} {v : α} {d : α}
    (h : k' ≠ k) : dictGet (dictSet l k v) k' d = dictGet l k' d := by
  have hk : (k == k') = false := by
    simp
    exact fun e => (h e.symm).elim
  simp only [dictGet, dictSet, List.find?_cons, hk]
  rw [find_filter_ne h l]

/-! ## Lemmas about the cascade fallback -/

/-- Control-flow characterization of the cascade: either some level among
1..5 is the first (in order) whose limited pool reaches `minEx` and the
cascade returns that pool with that label, or none of levels 1..5
reaches `minEx` and the cascade returns the emergency result regardless
of its size. -/
theorem cascade_cases (catalog : List Exercise) (user : UserSnapshot) (minEx : Nat)
    (excluded : List String) :
    (∃ i, i < 5 ∧
      minEx ≤ (levelPool catalog user minEx excluded i).length ∧
      (∀ j, j < i → (levelPool catalog user minEx excluded j).length < minEx) ∧
      applyCascadeFallback catalog user minEx excluded =
        (levelPool catalog user minEx excluded i, levelName i)) ∨
    ((∀ j, j < 5 → (levelPool catalog user minEx excluded j).length < minEx) ∧
      applyCascadeFallback catalog user minEx excluded =
        (getEmergencyExercises catalog excluded, "emergency_bodyweight")) := by
  by_cases h0 : minEx ≤ (levelPool catalog user minEx excluded 0).length
  · refine Or.inl ⟨0, by omega, h0, by omega, ?_⟩
    simp only [applyCascadeFallback, levelPool, levelName]
    rw [if_pos (by simpa [levelPool] using h0)]
    rfl
  · by_cases h1 : minEx ≤ (levelPool catalog user minEx excluded 1).length
    · refine Or.inl ⟨1, by omega, h1, ?_, ?_⟩
      · intro j hj
        interval_cases j
        omega
      · simp only [applyCascadeFallback, levelPool, levelName]
        rw [if_neg (by simpa [levelPool] using h0), if_pos (by simpa [levelPool] using h1)]
        rfl
    · by_cases h2 : minEx ≤ (levelPool catalog user minEx excluded 2).length
      · refine Or.inl ⟨2, by omega, h2, ?_, ?_⟩
        · intro j hj
          interval_cases j <;> omega
        · simp only [applyCascadeFallback, levelPool, levelName]
          rw [if_neg (by simpa [levelPool] using h0), if_neg (by simpa [levelPool] using h1),
            if_pos (by simpa [levelPool] using h2)]
          rfl
      · by_cases h4 : minEx ≤ (levelPool catalog user minEx excluded 4).length
        · refine Or.inl ⟨4, by omega, h4, ?_, ?_⟩
          · intro j hj
            have h3 : (levelPool catalog user minEx excluded 3).length =
                (levelPool catalog user minEx excluded 2).length := rfl
            interval_cases j <;> omega
          · simp only [applyCascadeFallback, levelPool, levelName]
            rw [if_neg (by simpa [levelPool] using h0), if_neg (by simpa [levelPool] using h1),
              if_neg (by simpa [levelPool] using h2), if_neg (by simpa [levelPool] using h2),
              if_pos (by simpa [levelPool] using h4)]
            rfl
        · refine Or.inr ⟨?_, ?_⟩
          · intro j hj
            have h3 : (levelPool catalog user minEx excluded 3).length =
                (levelPool catalog user minEx excluded 2).length := rfl
            interval_cases j <;> omega
          · simp only [applyCascadeFallback, levelPool, levelName]
            rw [if_neg (by simpa [levelPool] using h0), if_neg (by simpa [levelPool] using h1),
              if_neg (by simpa [levelPool] using h2), if_neg (by simpa [levelPool] using h2),
              if_neg (by simpa [levelPool] using h4)]

/-- The keywords of the negated regex part of a `Title` condition. -/
def titleKws : TitleCond → List String
  | .absent => []
  | .nin _ => []
  | .ninNot _ kws => kws
  | .notOnly kws => kws

theorem titleKws_addInjuryKeyword_mono {t : TitleCond} {kw kw0 : String}
    (h : kw0 ∈ titleKws t) : kw0 ∈ titleKws (addInjuryKeyword t kw) := by
  cases t <;> simp_all [titleKws, addInjuryKeyword]

theorem titleKws_addInjuryKeyword_self (t : TitleCond) (kw : String) :
    kw ∈ titleKws (addInjuryKeyword t kw) := by
  cases t <;> simp [titleKws, addInjuryKeyword]

theorem titleKws_foldl_mono {kw0 : String} :
    ∀ (kws : List String) (t : TitleCond), kw0 ∈ titleKws t →
      kw0 ∈ titleKws (kws.foldl addInjuryKeyword t) := by
  intro kws
  induction kws with
  | nil => intro t h; exact h
  | cons k ks ih =>
    intro t h
    exact ih (addInjuryKeyword t k) (titleKws_addInjuryKeyword_mono h)

theorem titleKws_foldl_mem {kw : String} :
    ∀ (kws : List String) (t : TitleCond), kw ∈ kws →
      kw ∈ titleKws (kws.foldl addInjuryKeyword t) := by
  intro kws
  induction kws with
  | nil => intro t h; simp at h
  | cons k ks ih =>
    intro t h
    rcases List.mem_cons.mp h with h | h
    · subst h
      exact titleKws_foldl_mono ks (addInjuryKeyword t kw) (titleKws_addInjuryKeyword_self t kw)
    · exact ih (addInjuryKeyword t k) h

theorem titleKws_addInjuries_mono {kw0 : String} :
    ∀ (injuries : List String) (t : TitleCond), kw0 ∈ titleKws t →
      kw0 ∈ titleKws (addInjuries t injuries) := by
  intro injuries
  induction injuries with
  | nil => intro t h; exact h
  | cons inj rest ih =>
    intro t h
    simp only [addInjuries, List.foldl_cons] at *
    exact ih ((injuryContraOf inj).foldl addInjuryKeyword t) (titleKws_foldl_mono _ t h)

theorem titleKws_addInjuries_mem {kw : String} :
    ∀ (injuries : List String) (t : TitleCond), kw ∈ injuryKwsOf injuries →
      kw ∈ titleKws (addInjuries t injuries) := by
  have hgen : ∀ (injuries : List String) (acc : List String) (t : TitleCond),
      kw ∈ injuries.foldl (fun a inj => a ++ injuryContraOf inj) acc →
      kw ∈ acc ∨ kw ∈ titleKws (addInjuries t injuries) := by
    intro injuries
    induction injuries with
    | nil => intro acc t h; exact Or.inl h
    | cons inj rest ih =>
      intro acc t h
      simp only [List.foldl_cons] at h
      rcases ih (acc ++ injuryContraOf inj) ((injuryContraOf inj).foldl addInjuryKeyword t) h with
        h2 | h2
      · rcases List.mem_append.mp h2 with h3 | h3
        · exact Or.inl h3
        · refine Or.inr ?_
          simp only [addInjuries, List.foldl_cons]
          exact titleKws_addInjuries_mono rest _ (titleKws_foldl_mem _ t h3)
      · refine Or.inr ?_
        simpa only [addInjuries, List.foldl_cons] using h2
  intro injuries t h
  rcases hgen injuries [] t h with h2 | h2
  · simp at h2
  · exact h2

/-- Every BMI blacklist keyword and every injury contraindication keyword
of the user ends up in the regex keyword list of the level-1 query. -/
theorem level1Query_titleKws (user : UserSnapshot) (excluded : List String) {kw : String}
    (h : kw ∈ blacklistOf user.bmiCategory ++ injuryKwsOf user.injuryTypes) :
    kw ∈ titleKws (level1Query user excluded).titleCond := by
  simp only [level1Query]
  rcases List.mem_append.mp h with h | h
  · have hbl : ¬(blacklistOf user.bmiCategory).isEmpty := by
      cases hb : blacklistOf user.bmiCategory with
      | nil => rw [hb] at h; simp at h
      | cons a l => simp
    apply titleKws_addInjuries_mono
    unfold addBmiBlacklist
    rw [if_neg hbl]
    cases hex : exclTitleCond excluded with
    | absent => simpa [titleKws] using h
    | nin l => simpa [titleKws] using h
    | ninNot l kws => simp [titleKws, List.mem_append]; right; exact h
    | notOnly kws => simp [titleKws, List.mem_append]; right; exact h
  · exact titleKws_addInjuries_mem user.injuryTypes _ h

/-- A title that satisfies a `Title` condition fails the case-insensitive
substring test for every keyword of the condition. -/
theorem titleCondSat_no_kw {t : TitleCond} {title : String}
    (hs : titleCondSat t title = true) {kw : String} (h : kw ∈ titleKws t) :
    containsCI title kw = false := by
  cases t with
  | absent => simp [titleKws] at h
  | nin l => simp [titleKws] at h
  | ninNot l kws =>
    simp only [titleCondSat, Bool.and_eq_true, List.all_eq_true] at hs
    have := hs.2 kw (by simpa [titleKws] using h)
    simpa using this
  | notOnly kws =>
    simp only [titleCondSat, List.all_eq_true] at hs
    have := hs kw (by simpa [titleKws] using h)
    simpa using this

/-- Levels 2, 3 and 4 reuse the level-1 `Title` condition unchanged. -/
theorem level3Query_titleCond (user : UserSnapshot) (excluded : List String) :
    (level3Query (level2Query (level1Query user excluded) user) user).titleCond =
      (level1Query user excluded).titleCond := rfl

/-- Every query level keeps the `exercise_id_clean` exclusion of level 1. -/
theorem level3Query_idNin (user : UserSnapshot) (excluded : List String) :
    (level3Query (level2Query (level1Query user excluded) user) user).idNin =
      (level1Query user excluded).idNin := rfl

/-- A document matching a query whose id exclusion is the (possibly
emptied) excluded list never carries an excluded `exercise_id_clean`. -/
theorem matches_id_not_excluded {q : GenQuery} {e : Exercise} {excluded : List String}
    (hq : q.idNin = if excluded.isEmpty then [] else excluded)
    (hm : matchesQuery q e = true) {v : String} (hv : e.exerciseIdClean = some v) :
    v ∉ excluded := by
  have hid : idNinSat q.idNin e = true := by
    simp only [matchesQuery, Bool.and_eq_true] at hm
    exact hm.1.1.1.1
  rw [hq] at hid
  unfold idNinSat at hid
  rw [hv] at hid
  by_cases hex : excluded.isEmpty
  · intro hmem
    rw [List.isEmpty_iff.mp hex] at hmem
    simp at hmem
  · rw [if_neg hex] at hid
    simpa using hid

/-- Origin of every exercise in the cascade result: either a catalog
document that passed the id exclusion, or a hardcoded fallback entry. -/
theorem emergency_origin (catalog : List Exercise) (excluded : List String) :
    ∀ e ∈ getEmergencyExercises catalog excluded,
      e ∈ hardcodedFallback ∨
        (e ∈ catalog ∧ ∀ v, e.exerciseIdClean = some v → v ∉ excluded) := by
  intro e he
  simp only [getEmergencyExercises] at he
  split at he
  · exact Or.inl he
  · refine Or.inr ?_
    have := mem_of_mem_mongoFind (mem_of_mem_mongoLimit he)
    refine ⟨this.1, fun v hv => ?_⟩
    exact matches_id_not_excluded (q := emergencyQuery excluded) rfl this.2 hv

theorem cascade_pool_origin (catalog : List Exercise) (user : UserSnapshot) (minEx : Nat)
    (excluded : List String) :
    ∀ e ∈ (applyCascadeFallback catalog user minEx excluded).1,
      e ∈ hardcodedFallback ∨
        (e ∈ catalog ∧ ∀ v, e.exerciseIdClean = some v → v ∉ excluded) := by
  have hemerg := emergency_origin catalog excluded
  have hquery : ∀ (q : GenQuery), q.idNin = (if excluded.isEmpty then [] else excluded) →
      ∀ e ∈ mongoLimit (minEx * 2) (mongoFind catalog q),
        e ∈ hardcodedFallback ∨
          (e ∈ catalog ∧ ∀ v, e.exerciseIdClean = some v → v ∉ excluded) := by
    intro q hq e he
    have := mem_of_mem_mongoFind (mem_of_mem_mongoLimit he)
    exact Or.inr ⟨this.1, fun v hv => matches_id_not_excluded hq this.2 hv⟩
  rcases cascade_cases catalog user minEx excluded with ⟨i, hi, _, _, heq⟩ | ⟨_, heq⟩
  · rw [heq]
    interval_cases i <;> exact hquery _ rfl
  · rw [heq]
    exact hemerg

/-- When the cascade reports one of the four title-filtered levels, every
exercise of the returned pool satisfies the level-1 `Title` condition. -/
theorem cascade_L14_title_safe (catalog : List Exercise) (user : UserSnapshot) (minEx : Nat)
    (excluded : List String)
    (hlab : (applyCascadeFallback catalog user minEx excluded).2 ∈ level14Names) :
    ∀ e ∈ (applyCascadeFallback catalog user minEx excluded).1,
      titleCondSat (level1Query user excluded).titleCond e.title = true := by
  intro e he
  rcases cascade_cases catalog user minEx excluded with ⟨i, hi, _, _, heq⟩ | ⟨_, heq⟩
  · rw [heq] at hlab he
    simp only at hlab he
    have hmq : ∀ (q : GenQuery), q.titleCond = (level1Query user excluded).titleCond →
        e ∈ mongoLimit (minEx * 2) (mongoFind catalog q) →
        titleCondSat (level1Query user excluded).titleCond e.title = true := by
      intro q hq he2
      have hm := (mem_of_mem_mongoFind (mem_of_mem_mongoLimit he2)).2
      simp only [matchesQuery, Bool.and_eq_true] at hm
      rw [← hq]
      exact hm.1.1.1.2
    interval_cases i
    · exact hmq (level1Query user excluded) rfl he
    · exact hmq (level2Query (level1Query user excluded) user) rfl he
    · exact hmq (level3Query (level2Query (level1Query user excluded) user) user) rfl he
    · exact hmq (level3Query (level2Query (level1Query user excluded) user) user) rfl he
    · exact absurd (show ("bmi_relaxed" : String) ∈ level14Names from hlab) (by decide)
  · rw [heq] at hlab
    exact absurd (show ("emergency_bodyweight" : String) ∈ level14Names from hlab) (by decide)

/-! ## Lemmas about scoring and selection -/

theorem selectCapped_mem :
    ∀ (scored : List (Exercise × ℚ)) (count : Nat) (sel : List Exercise)
      (used : List (String × Nat)) {x : Exercise},
      x ∈ selectCapped scored count sel used → x ∈ sel ∨ ∃ p ∈ scored, p.1 = x := by
  intro scored
  induction scored with
  | nil => intro count sel used x hx; exact Or.inl hx
  | cons p rest ih =>
    intro count sel used x hx
    obtain ⟨ex, s⟩ := p
    simp only [selectCapped] at hx
    split at hx
    · exact Or.inl hx
    · split at hx
      · rcases ih _ _ _ hx with h | ⟨q, hq, hq2⟩
        · rcases List.mem_append.mp h with h2 | h2
          · exact Or.inl h2
          · exact Or.inr ⟨(ex, s), List.mem_cons_self _ _, by simpa using (List.mem_singleton.mp h2).symm⟩
        · exact Or.inr ⟨q, List.mem_cons_of_mem _ hq, hq2⟩
      · rcases ih _ _ _ hx with h | ⟨q, hq, hq2⟩
        · exact Or.inl h
        · exact Or.inr ⟨q, List.mem_cons_of_mem _ hq, hq2⟩

theorem relaxFill_mem :
    ∀ (scored : List (Exercise × ℚ)) (count : Nat) (sel : List Exercise) {x : Exercise},
      x ∈ relaxFill scored count sel → x ∈ sel ∨ ∃ p ∈ scored, p.1 = x := by
  intro scored
  induction scored with
  | nil => intro count sel x hx; exact Or.inl hx
  | cons p rest ih =>
    intro count sel x hx
    obtain ⟨ex, s⟩ := p
    simp only [relaxFill] at hx
    split at hx
    · rcases ih _ _ hx with h | ⟨q, hq, hq2⟩
      · exact Or.inl h
      · exact Or.inr ⟨q, List.mem_cons_of_mem _ hq, hq2⟩
    · split at hx
      · rcases List.mem_append.mp hx with h2 | h2
        · exact Or.inl h2
        · exact Or.inr ⟨(ex, s), List.mem_cons_self _ _, by simpa using (List.mem_singleton.mp h2).symm⟩
      · rcases ih _ _ hx with h | ⟨q, hq, hq2⟩
        · rcases List.mem_append.mp h with h2 | h2
          · exact Or.inl h2
          · exact Or.inr ⟨(ex, s), List.mem_cons_self _ _, by simpa using (List.mem_singleton.mp h2).symm⟩
        · exact Or.inr ⟨q, List.mem_cons_of_mem _ hq, hq2⟩

/-- Everything the scorer selects comes from the candidate pool. -/
theorem scoreAndSelect_subset (exercises : List Exercise) (user : UserSnapshot)
    (excludedIds : List String) (recencyMap : List (String × ℚ)) (prefs : UserPreferences)
    (jitter : Nat → ℚ) (count : Nat) {x : Exercise}
    (hx : x ∈ scoreAndSelect exercises user excludedIds recencyMap prefs jitter count) :
    x ∈ exercises := by
  simp only [scoreAndSelect] at hx
  have hsorted : ∀ p, p ∈ sortBy scoreDesc
      (mapIdx (fun i ex => (ex, scoreOf user prefs recencyMap (jitter i) ex)) 0 exercises) →
      p.1 ∈ exercises := by
    intro p hp
    have hp2 := (sortBy_perm scoreDesc _).mem_iff.mp hp
    obtain ⟨j, a, ha, hpa⟩ := mem_mapIdx hp2
    rw [hpa]
    exact ha
  split at hx
  · rcases relaxFill_mem _ _ _ hx with h | ⟨q, hq, hq2⟩
    · rcases selectCapped_mem _ _ _ _ h with h2 | ⟨q, hq, hq2⟩
      · simp at h2
      · rw [← hq2]; exact hsorted q hq
    · rw [← hq2]; exact hsorted q hq
  · rcases selectCapped_mem _ _ _ _ hx with h2 | ⟨q, hq, hq2⟩
    · simp at h2
    · rw [← hq2]; exact hsorted q hq

/-- Everything a day selects comes from the candidate pool of the day. -/
theorem daySelected_subset (ctx : DayCtx) (duration : Nat) (excluded : List String)
    (rng : DayRng) {x : Exercise} (hx : x ∈ daySelected ctx duration excluded rng) :
    x ∈ (dayPoolFallback ctx (getExerciseCount (mainDurationOf duration) * 3) excluded).1 := by
  simp only [daySelected] at hx
  exact scoreAndSelect_subset _ _ _ _ _ _ _ hx

/-- A day whose fallback label is one of the four title-filtered levels
took the plain cascade result (the empty-pool override is the emergency
label, which is not among them). -/
theorem dayPoolFallback_L14 (ctx : DayCtx) (minEx : Nat) (excluded : List String)
    (hlab : (dayPoolFallback ctx minEx excluded).2 ∈ level14Names) :
    dayPoolFallback ctx minEx excluded = applyCascadeFallback ctx.catalog ctx.user minEx excluded := by
  simp only [dayPoolFallback] at hlab ⊢
  by_cases hemp : (applyCascadeFallback ctx.catalog ctx.user minEx excluded).1.isEmpty = true
  · rw [if_pos hemp] at hlab
    exact absurd (show ("emergency_bodyweight" : String) ∈ level14Names from hlab) (by decide)
  · rw [if_neg hemp]

/-! ## The keyword universe (for titles replaced by the default name) -/

/-- All keywords appearing in the two safety tables. -/
def allSafetyKws : List String :=
  (bmiSafetyBlacklistKeywords.map (fun p => p.2)).flatten ++
    (injuryContraindications.map (fun p => p.2)).flatten

theorem dictGet_cases (l : List (String × α)) (k : String) (d : α) :
    dictGet l k d = d ∨ ∃ p ∈ l, dictGet l k d = p.2 := by
  unfold dictGet
  cases hf : l.find? (fun p => p.1 == k) with
  | none => exact Or.inl rfl
  | some p => exact Or.inr ⟨p, List.mem_of_find?_eq_some hf, rfl⟩

theorem blacklistOf_subset_univ {cat kw : String} (h : kw ∈ blacklistOf cat) :
    kw ∈ allSafetyKws := by
  unfold blacklistOf at h
  rcases dictGet_cases bmiSafetyBlacklistKeywords cat [] with hc | ⟨p, hp, hc⟩
  · rw [hc] at h; simp at h
  · rw [hc] at h
    refine List.mem_append.mpr (Or.inl ?_)
    exact List.mem_flatten.mpr ⟨p.2, List.mem_map.mpr ⟨p, hp, rfl⟩, h⟩

theorem mem_foldl_append {g : β → List String} {x : String} :
    ∀ (l : List β) (acc : List String),
      x ∈ l.foldl (fun a b => a ++ g b) acc → x ∈ acc ∨ ∃ b ∈ l, x ∈ g b := by
  intro l
  induction l with
  | nil => intro acc h; exact Or.inl h
  | cons b rest ih =>
    intro acc h
    simp only [List.foldl_cons] at h
    rcases ih (acc ++ g b) h with h2 | ⟨b2, hb2, hx⟩
    · rcases List.mem_append.mp h2 with h3 | h3
      · exact Or.inl h3
      · exact Or.inr ⟨b, List.mem_cons_self _ _, h3⟩
    · exact Or.inr ⟨b2, List.mem_cons_of_mem _ hb2, hx⟩

theorem injuryKwsOf_subset_univ {injuries : List String} {kw : String}
    (h : kw ∈ injuryKwsOf injuries) : kw ∈ allSafetyKws := by
  unfold injuryKwsOf at h
  rcases mem_foldl_append injuries [] h with h2 | ⟨inj, _, hkw⟩
  · simp at h2
  · unfold injuryContraOf at hkw
    rcases dictGet_cases injuryContraindications inj [] with hc | ⟨p, hp, hc⟩
    · rw [hc] at hkw; simp at hkw
    · rw [hc] at hkw
      refine List.mem_append.mpr (Or.inr ?_)
      exact List.mem_flatten.mpr ⟨p.2, List.mem_map.mpr ⟨p, hp, rfl⟩, hkw⟩

theorem unknown_name_safe : allSafetyKws.all (fun kw => !(containsCI "Unknown Exercise" kw)) = true := by
  decide

/-! ## Day-level safety lemma -/

/-- At a title-filtered fallback level, no main exercise name of the day
contains a BMI blacklist keyword or an injury contraindication keyword of
the user (the exercise name is the catalog title, or the fixed default
name when the title is empty). -/
theorem generateDayPlan_title_safe (ctx : DayCtx) (duration : Nat) (excluded : List String)
    (rng : DayRng)
    (hlab : (generateDayPlan ctx duration excluded rng).2 ∈ level14Names) :
    ∀ det ∈ (generateDayPlan ctx duration excluded rng).1.main,
      ∀ kw, kw ∈ blacklistOf ctx.user.bmiCategory ++ injuryKwsOf ctx.user.injuryTypes →
        containsCI det.name kw = false := by
  intro det hdet kw hkw
  have hlab2 : (dayPoolFallback ctx (getExerciseCount (mainDurationOf duration) * 3) excluded).2
      ∈ level14Names := hlab
  have hdp := dayPoolFallback_L14 ctx _ excluded hlab2
  have hdet2 : det ∈ (generateDayPlan ctx duration excluded rng).1.main := hdet
  simp only [generateDayPlan] at hdet2
  obtain ⟨j, ex, hex, hdet3⟩ := mem_mapIdx hdet2
  have hexpool := daySelected_subset ctx duration excluded rng hex
  rw [hdp] at hexpool
  have hsafe := cascade_L14_title_safe ctx.catalog ctx.user _ excluded
    (by rw [← hdp]; exact hlab2) ex hexpool
  have htitle : containsCI ex.title kw = false :=
    titleCondSat_no_kw hsafe (level1Query_titleKws ctx.user excluded hkw)
  have hname : det.name = (if ex.title = "" then "Unknown Exercise" else ex.title) := by
    rw [hdet3]
    rfl
  rw [hname]
  by_cases hempty : ex.title = ""
  · rw [if_pos hempty]
    have huniv : kw ∈ allSafetyKws := by
      rcases List.mem_append.mp hkw with h | h
      · exact blacklistOf_subset_univ h
      · exact injuryKwsOf_subset_univ h
    have := List.all_eq_true.mp unknown_name_safe kw huniv
    simpa using this
  · rw [if_neg hempty]
    exact htitle

/-- Origin of every exercise a day can use, whatever the fallback path. -/
theorem dayPool_origin (ctx : DayCtx) (minEx : Nat) (excluded : List String) :
    ∀ e ∈ (dayPoolFallback ctx minEx excluded).1,
      e ∈ hardcodedFallback ∨
        (e ∈ ctx.catalog ∧ ∀ v, e.exerciseIdClean = some v → v ∉ excluded) := by
  intro e he
  simp only [dayPoolFallback] at he
  split at he
  · exact emergency_origin ctx.catalog excluded e he
  · exact cascade_pool_origin ctx.catalog ctx.user minEx excluded e he

theorem hardcoded_exId : ∀ e ∈ hardcodedFallback, exId e ∈ hardcodedIds := by
  decide

/-- Every main exercise id of a generated day is either a hardcoded
fallback id or an id outside the exclusion list of the day. -/
theorem generateDayPlan_main_ids (ctx : DayCtx) (duration : Nat) (excluded : List String)
    (rng : DayRng) (hcat : ∀ e ∈ ctx.catalog, e.exerciseIdClean.isSome = true) :
    ∀ det ∈ (generateDayPlan ctx duration excluded rng).1.main,
      det.id ∈ hardcodedIds ∨ det.id ∉ excluded := by
  intro det hdet
  simp only [generateDayPlan] at hdet
  obtain ⟨j, ex, hex, hdet2⟩ := mem_mapIdx hdet
  have hpool := daySelected_subset ctx duration excluded rng hex
  have hid : det.id = exId ex := by rw [hdet2]; rfl
  rcases dayPool_origin ctx _ excluded ex hpool with h | ⟨hexcat, hv⟩
  · exact Or.inl (hid ▸ hardcoded_exId ex h)
  · refine Or.inr ?_
    have hs := hcat ex hexcat
    cases hsome : ex.exerciseIdClean with
    | none => rw [hsome] at hs; simp at hs
    | some v =>
      have : exId ex = v := by simp [exId, hsome]
      rw [hid, this]
      exact hv v hsome

/-! ## Lemmas about the week loop -/

/-- The main exercise ids of one per-day entry. -/
def entryMainIds (e : String × DayPlan × String) : List String :=
  e.2.1.main.map (fun d => d.id)

/-- The event trace of the loop is the incoming trace followed by one
build event per remaining day: the loop issues no store writes. -/
theorem weekLoop_events (ctx : DayCtx) (rng : Nat → DayRng)
    (durations : List (String × Nat)) (recentIds : List String) :
    ∀ (days : List String) (i : Nat) (acc : List (String × DayPlan × String))
      (weekIds : List String) (events : List StoreEvent),
      (weekLoop ctx rng durations recentIds days i acc weekIds events).2.2 =
        events ++ days.map StoreEvent.dayBuilt := by
  intro days
  induction days with
  | nil => intro i acc weekIds events; simp [weekLoop]
  | cons day rest ih =>
    intro i acc weekIds events
    simp only [weekLoop]
    split
    · rw [ih]
      simp
    · rw [ih]
      simp

/-- Preservation of a per-entry predicate through the day loop. -/
theorem weekLoop_entries_pred (ctx : DayCtx) (rng : Nat → DayRng)
    (durations : List (String × Nat)) (recentIds : List String)
    (P : String × DayPlan × String → Prop)
    (hrest : ∀ day, P (day, createRestDay, "rest"))
    (hgen : ∀ day (duration : Nat) (excl : List String) (i : Nat),
      P (day, generateDayPlan ctx duration excl (rng i))) :
    ∀ (days : List String) (i : Nat) (acc : List (String × DayPlan × String))
      (weekIds : List String) (events : List StoreEvent),
      (∀ e ∈ acc, P e) →
      ∀ e ∈ (weekLoop ctx rng durations recentIds days i acc weekIds events).1, P e := by
  intro days
  induction days with
  | nil => intro i acc weekIds events hacc e he; exact hacc e he
  | cons day rest ih =>
    intro i acc weekIds events hacc e he
    simp only [weekLoop] at he
    split at he
    · refine ih _ _ _ _ ?_ e he
      intro e2 he2
      rcases List.mem_append.mp he2 with h | h
      · exact hacc e2 h
      · rw [List.mem_singleton.mp h]
        exact hrest day
    · refine ih _ _ _ _ ?_ e he
      intro e2 he2
      rcases List.mem_append.mp he2 with h | h
      · exact hacc e2 h
      · rw [List.mem_singleton.mp h]
        exact hgen day _ _ i

/-- The repeat relation of claim C5: two day entries may only share the
hardcoded terminal ids. -/
def sharesOnlyHardcoded (a b : String × DayPlan × String) : Prop :=
  ∀ id, id ∈ entryMainIds a → id ∈ entryMainIds b → id ∈ hardcodedIds

/-- The day loop keeps the pairwise no-repeat invariant: every main id of
an already generated day is in the running exclusion list, so a later day
can only repeat it through the hardcoded terminal fallback. -/
theorem weekLoop_pairwise (ctx : DayCtx) (rng : Nat → DayRng)
    (durations : List (String × Nat)) (recentIds : List String)
    (hcat : ∀ e ∈ ctx.catalog, e.exerciseIdClean.isSome = true) :
    ∀ (days : List String) (i : Nat) (acc : List (String × DayPlan × String))
      (weekIds : List String) (events : List StoreEvent),
      (∀ e ∈ acc, ∀ id ∈ entryMainIds e, id ∈ weekIds) →
      List.Pairwise sharesOnlyHardcoded acc →
      List.Pairwise sharesOnlyHardcoded
        (weekLoop ctx rng durations recentIds days i acc weekIds events).1 := by
  intro days
  induction days with
  | nil => intro i acc weekIds events _ hpair; exact hpair
  | cons day rest ih =>
    intro i acc weekIds events hinv hpair
    simp only [weekLoop]
    split
    · refine ih _ _ _ _ ?_ ?_
      · intro e he id hid
        rcases List.mem_append.mp he with h | h
        · exact hinv e h id hid
        · rw [List.mem_singleton.mp h] at hid
          simp [entryMainIds, createRestDay] at hid
      · rw [List.pairwise_append]
        refine ⟨hpair, List.pairwise_singleton _ _, ?_⟩
        intro a ha b hb
        rw [List.mem_singleton.mp hb]
        intro id hida hidb
        simp [entryMainIds, createRestDay] at hidb
    · refine ih _ _ _ _ ?_ ?_
      · intro e he id hid
        rcases List.mem_append.mp he with h | h
        · exact List.mem_append.mpr (Or.inl (hinv e h id hid))
        · rw [List.mem_singleton.mp h] at hid
          exact List.mem_append.mpr (Or.inr hid)
      · rw [List.pairwise_append]
        refine ⟨hpair, List.pairwise_singleton _ _, ?_⟩
        intro a ha b hb
        rw [List.mem_singleton.mp hb]
        intro id hida hidb
        have hidmem : id ∈ weekIds := hinv a ha id hida
        have hdet : ∃ det ∈ (generateDayPlan ctx (dictGet durations day 0)
            (recentIds ++ weekIds) (rng i)).1.main, det.id = id := by
          simp only [entryMainIds] at hidb
          obtain ⟨det, hdmem, hdid⟩ := List.mem_map.mp hidb
          exact ⟨det, hdmem, hdid⟩
        obtain ⟨det, hdmem, hdid⟩ := hdet
        rcases generateDayPlan_main_ids ctx _ _ _ hcat det hdmem with h | h
        · rw [← hdid]; exact h
        · exfalso
          exact h (hdid ▸ List.mem_append.mpr (Or.inr hidmem))

/-! ## Lemmas about the body-part cap and the selected count -/

/-- How many selected exercises carry the given lowercased body part. -/
def bpCount (sel : List Exercise) (bp : String) : Nat :=
  (sel.filter (fun e => lowerStr e.bodyPart == bp)).length

theorem bpCount_append_single (sel : List Exercise) (ex : Exercise) (bp : String) :
    bpCount (sel ++ [ex]) bp =
      bpCount sel bp + (if lowerStr ex.bodyPart == bp then 1 else 0) := by
  simp only [bpCount, List.filter_append, List.length_append]
  congr 1
  by_cases h : (lowerStr ex.bodyPart == bp) = true
  · simp [h]
  · simp [h]

/-- The greedy pass preserves the 2-per-body-part cap, given that the
body-part usage dictionary counts the current selection exactly. -/
theorem selectCapped_cap :
    ∀ (scored : List (Exercise × ℚ)) (count : Nat) (sel : List Exercise)
      (used : List (String × Nat)),
      (∀ bp, dictGet used bp 0 = bpCount sel bp) →
      (∀ bp, bpCount sel bp ≤ 2) →
      ∀ bp, bpCount (selectCapped scored count sel used) bp ≤ 2 := by
  intro scored
  induction scored with
  | nil => intro count sel used _ h2 bp; exact h2 bp
  | cons p rest ih =>
    intro count sel used h1 h2 bp
    obtain ⟨ex, s⟩ := p
    simp only [selectCapped]
    split
    · exact h2 bp
    · split
      · next hlt =>
        refine ih _ _ _ ?_ ?_ bp
        · intro bp2
          by_cases hbp : bp2 = lowerStr ex.bodyPart
          · subst hbp
            rw [dictGet_dictSet_self, bpCount_append_single]
            simp [h1]
          · rw [dictGet_dictSet_ne hbp, bpCount_append_single]
            have hne : (lowerStr ex.bodyPart == bp2) = false := by
              simp
              exact fun e => (hbp e.symm).elim
            simp [hne, h1 bp2]
        · intro bp2
          rw [bpCount_append_single]
          by_cases hbp : (lowerStr ex.bodyPart == bp2) = true
          · have hbpeq : bp2 = lowerStr ex.bodyPart := (eq_of_beq hbp).symm
            rw [h1 (lowerStr ex.bodyPart)] at hlt
            rw [if_pos hbp, hbpeq]
            omega
          · rw [if_neg hbp]
            simpa using h2 bp2
      · exact ih _ _ _ h1 h2 bp

theorem selectCapped_length_le :
    ∀ (scored : List (Exercise × ℚ)) (count : Nat) (sel : List Exercise)
      (used : List (String × Nat)), sel.length ≤ count →
      (selectCapped scored count sel used).length ≤ count := by
  intro scored
  induction scored with
  | nil => intro count sel used h; exact h
  | cons p rest ih =>
    intro count sel used h
    obtain ⟨ex, s⟩ := p
    simp only [selectCapped]
    split
    · exact h
    · split
      · refine ih _ _ _ ?_
        simp only [List.length_append, List.length_singleton]
        omega
      · exact ih _ _ _ h

theorem selectCapped_sublist :
    ∀ (scored : List (Exercise × ℚ)) (count : Nat) (sel : List Exercise)
      (used : List (String × Nat)),
      (selectCapped scored count sel used).Sublist (sel ++ scored.map Prod.fst) := by
  intro scored
  induction scored with
  | nil => intro count sel used; simp [selectCapped]
  | cons p rest ih =>
    intro count sel used
    obtain ⟨ex, s⟩ := p
    simp only [selectCapped]
    split
    · exact List.sublist_append_left sel (((ex, s) :: rest).map Prod.fst)
    · split
      · have := ih count (sel ++ [ex]) (dictSet used (lowerStr ex.bodyPart)
          (dictGet used (lowerStr ex.bodyPart) 0 + 1))
        simpa [List.append_assoc] using this
      · refine (ih count sel used).trans ?_
        refine List.Sublist.append_left ?_ sel
        exact (List.Sublist.refl (rest.map Prod.fst)).cons _

theorem mapIdx_length {f : Nat → α → β} :
    ∀ (i : Nat) (l : List α), (mapIdx f i l).length = l.length := by
  intro i l
  induction l generalizing i with
  | nil => rfl
  | cons a as ih => simp [mapIdx, ih]

/-- When the greedy pass starved the selection, the relax pass fills the
selection up to exactly `count`, as long as enough distinct candidates
remain available. -/
theorem relaxFill_length :
    ∀ (scored : List (Exercise × ℚ)) (count : Nat) (sel : List Exercise),
      (scored.map Prod.fst).Nodup →
      sel.length < count →
      count ≤ sel.length + (scored.filter (fun p => !(sel.contains p.1))).length →
      (relaxFill scored count sel).length = count := by
  intro scored
  induction scored with
  | nil =>
    intro count sel _ hlt hav
    simp only [List.filter_nil, List.length_nil] at hav
    omega
  | cons p rest ih =>
    intro count sel hn hlt hav
    obtain ⟨ex, s⟩ := p
    have hn2 : (rest.map Prod.fst).Nodup := by
      simpa using List.Nodup.of_cons (by simpa using hn)
    have hexnotin : ex ∉ rest.map Prod.fst := by
      have := (by simpa using hn : (ex :: rest.map Prod.fst).Nodup)
      exact (List.nodup_cons.mp this).1
    simp only [relaxFill]
    split
    · next hc =>
      refine ih count sel hn2 hlt ?_
      have hfe : List.filter (fun p => !(sel.contains p.1)) ((ex, s) :: rest) =
          List.filter (fun p => !(sel.contains p.1)) rest := by
        have hmem : ex ∈ sel := by simpa using hc
        simp [List.filter_cons, hmem]
      rw [hfe] at hav
      exact hav
    · next hc =>
      split
      · next hfull =>
        simp only [List.length_append, List.length_singleton] at hfull ⊢
        omega
      · next hfull =>
        refine ih count (sel ++ [ex]) hn2 ?_ ?_
        · simp only [List.length_append, List.length_singleton] at hfull ⊢
          omega
        · have hfe : List.filter (fun p => !((sel ++ [ex]).contains p.1)) rest =
              List.filter (fun p => !(sel.contains p.1)) rest := by
            refine List.filter_congr ?_
            intro q hq
            have hq1 : q.1 ≠ ex := by
              intro he
              exact hexnotin (he ▸ List.mem_map_of_mem Prod.fst hq)
            have hctr : (sel ++ [ex]).contains q.1 = sel.contains q.1 := by
              by_cases hmem : q.1 ∈ sel
              · simp [hmem]
              · simp [hmem, hq1]
            rw [hctr]
          have hfc : List.filter (fun p => !(sel.contains p.1)) ((ex, s) :: rest) =
              (ex, s) :: List.filter (fun p => !(sel.contains p.1)) rest := by
            have hmem : ex ∉ sel := by simpa using hc
            simp [List.filter_cons, hmem]
          rw [hfc] at hav
          simp only [List.length_cons, List.length_append, List.length_singleton] at hav ⊢
          rw [hfe]
          omega

/-- The scorer selects exactly the requested number of exercises whenever
the pool holds at least that many distinct candidates. -/
theorem scoreAndSelect_length (exercises : List Exercise) (user : UserSnapshot)
    (excludedIds : List String) (recencyMap : List (String × ℚ)) (prefs : UserPreferences)
    (jitter : Nat → ℚ) (count : Nat) (hn : exercises.Nodup)
    (hlen : count ≤ exercises.length) :
    (scoreAndSelect exercises user excludedIds recencyMap prefs jitter count).length = count := by
  simp only [scoreAndSelect]
  set scored := mapIdx (fun i ex => (ex, scoreOf user prefs recencyMap (jitter i) ex)) 0 exercises
    with hscored
  set sorted := sortBy scoreDesc scored with hsorted
  have hfst : scored.map Prod.fst = exercises := mapIdx_map_fst _ 0 exercises
  have hperm : List.Perm (sorted.map Prod.fst) (scored.map Prod.fst) :=
    (sortBy_perm scoreDesc scored).map Prod.fst
  have hnodup : (sorted.map Prod.fst).Nodup := hperm.nodup_iff.mpr (hfst ▸ hn)
  have hlensorted : sorted.length = exercises.length := by
    have h1 : sorted.length = scored.length := (sortBy_perm scoreDesc scored).length_eq
    rw [h1, ← hfst, List.length_map]
  set sel1 := selectCapped sorted count [] [] with hsel1
  by_cases hstarved : sel1.length < count
  · rw [if_pos hstarved]
    have hsub : sel1.Sublist (sorted.map Prod.fst) := by
      have := selectCapped_sublist sorted count [] []
      simpa using this
    have hseln : sel1.Nodup := hsub.nodup hnodup
    have hsplit : (sorted.filter (fun p => sel1.contains p.1)).length +
        (sorted.filter (fun p => !(sel1.contains p.1))).length = sorted.length := by
      have := (List.filter_append_perm (fun p => sel1.contains p.1) sorted).length_eq
      simpa [List.length_append] using this
    have hinsel : (sorted.filter (fun p => sel1.contains p.1)).length ≤ sel1.length := by
      have hmapn : ((sorted.filter (fun p => sel1.contains p.1)).map Prod.fst).Nodup :=
        ((List.filter_sublist sorted).map Prod.fst).nodup hnodup
      have hsubset : ((sorted.filter (fun p => sel1.contains p.1)).map Prod.fst) ⊆ sel1 := by
        intro x hx
        obtain ⟨q, hq, hqx⟩ := List.mem_map.mp hx
        have := (List.mem_filter.mp hq).2
        rw [hqx] at this
        simpa using this
      have := (List.subperm_of_subset hmapn hsubset).length_le
      simpa using this
    refine relaxFill_length sorted count sel1 hnodup hstarved ?_
    omega
  · rw [if_neg hstarved]
    have hle : sel1.length ≤ count := selectCapped_length_le sorted count [] [] (by simp)
    omega

/-! ## Concrete fixtures used by witnesses and counterexamples -/

/-- Degenerate random draws: zero jitter, lower-bound randint draws,
first message choice (one possible execution of the generator). -/
def rngZero : DayRng :=
  { jitter := fun _ => 0, setsDraw := fun _ lo _ => lo, repsDraw := fun _ lo _ => lo
    msgIdx := 0 }

/-- The preference aggregate of a user without session logs. -/
def prefsDefault : UserPreferences :=
  { avgCompletionRate := 0.8, avgRpe := 7, preferredBodyParts := []
    bodyPartSatisfaction := [] }

/-- A beginner bodyweight user of normal BMI (70 kg, 175 cm). -/
def userBW : UserSnapshot :=
  { userId := "user-1", primaryGoal := "general_fitness", fitnessLevel := "Beginner"
    equipmentList := ["Bodyweight"], bmiCategory := "normal", injuryTypes := []
    weightKg := 70, heightCm := 175 }

/-- The emergency path never returns an empty list. -/
theorem getEmergencyExercises_ne_nil (catalog : List Exercise) (excluded : List String) :
    getEmergencyExercises catalog excluded ≠ [] := by
  simp only [getEmergencyExercises]
  split
  · decide
  · next h =>
    intro hnil
    rw [hnil] at h
    simp at h

/-! ## Claim C10 -/

/-- C10: for every BMI value of 100 or greater, `get_bmi_category` falls
through every configured band and returns the default "normal", whose
blacklist lookup yields no keywords and whose RPE cap lookup yields 10 --
so such a user is generated without the severe_obese restrictions. -/
theorem c10_bmi_overflow_normal (bmi : ℚ) (h : 100 ≤ bmi) :
    getBmiCategory bmi = "normal" ∧
    blacklistOf (getBmiCategory bmi) = [] ∧
    dictGet bmiRpeCaps (getBmiCategory bmi) 10 = 10 := by
  have hcat : getBmiCategory bmi = "normal" := by
    unfold getBmiCategory
    have hnone : bmiCategories.find? (fun c => decide (c.2.1 ≤ bmi ∧ bmi < c.2.2)) = none := by
      rw [List.find?_eq_none]
      intro c hc
      fin_cases hc <;>
        · simp only [decide_eq_true_eq, not_and, not_lt]
          intro _
          linarith
    rw [hnone]
  refine ⟨hcat, ?_, ?_⟩
  · rw [hcat]; decide
  · rw [hcat]; decide

theorem c10_witness :
    getBmiCategory 100 = "normal" ∧
    blacklistOf (getBmiCategory 100) = [] ∧
    dictGet bmiRpeCaps (getBmiCategory 100) 10 = 10 :=
  c10_bmi_overflow_normal 100 (by decide)

/-! ## Claim C4 -/

/-- C4: the "related_goals" cascade level label is unreachable: the source
computes the related-goal set at level 4 and then reruns the unchanged
level-3 query, so level 4 can never succeed where level 3 failed, and no
union of per-goal candidate pools ever happens.  This contradicts the
stated design (and the sibling `ExerciseFilter.apply_cascade_fallback`,
which does query per related goal), evidencing a slip in the code. -/
theorem c4_related_goals_unreachable (catalog : List Exercise) (user : UserSnapshot)
    (minEx : Nat) (excluded : List String) :
    (applyCascadeFallback catalog user minEx excluded).2 ≠ "related_goals" := by
  intro h
  rcases cascade_cases catalog user minEx excluded with ⟨i, hi, hge, hfirst, heq⟩ | ⟨_, heq⟩
  · rw [heq] at h
    simp only at h
    interval_cases i
    · exact absurd h (by decide)
    · exact absurd h (by decide)
    · exact absurd h (by decide)
    · have h2 : (levelPool catalog user minEx excluded 2).length =
          (levelPool catalog user minEx excluded 3).length := rfl
      have := hfirst 2 (by omega)
      omega
    · exact absurd h (by decide)
  · rw [heq] at h
    exact absurd (show ("emergency_bodyweight" : String) = "related_goals" from h) (by decide)

/-! ## Claim C2 -/

/-- C2 (counterexample): with a minimum-count request of 0 the cascade
returns an empty pool labelled "perfect" on an empty catalog, because the
level-1 length check `0 <= 0` succeeds vacuously. -/
theorem c2_counterexample :
    (applyCascadeFallback [] userBW 0 []).1 = [] ∧
    (applyCascadeFallback [] userBW 0 []).2 = "perfect" := by
  decide

/-- C2 (amended): for every minimum-count request of at least 1 (the
generator always requests at least 9), the cascade returns a non-empty
list -- it is a total function, so no error can escape -- and whenever the
level-6 bodyweight catalog query comes back empty and the emergency level
is reached, the result is exactly the fixed hardcoded minimal set. -/
theorem c2_cascade_total (catalog : List Exercise) (user : UserSnapshot) (minEx : Nat)
    (excluded : List String) (hmin : 1 ≤ minEx) :
    (applyCascadeFallback catalog user minEx excluded).1 ≠ [] ∧
    (emergencyQueryPool catalog excluded = [] →
      (applyCascadeFallback catalog user minEx excluded).2 = "emergency_bodyweight" →
      (applyCascadeFallback catalog user minEx excluded).1 = hardcodedFallback) := by
  constructor
  · rcases cascade_cases catalog user minEx excluded with ⟨i, hi, hge, _, heq⟩ | ⟨_, heq⟩
    · rw [heq]
      simp only
      intro hnil
      rw [hnil] at hge
      simp at hge
      omega
    · rw [heq]
      simp only
      exact getEmergencyExercises_ne_nil catalog excluded
  · intro hq hlab
    rcases cascade_cases catalog user minEx excluded with ⟨i, hi, hge, _, heq⟩ | ⟨_, heq⟩
    · rw [heq] at hlab
      simp only at hlab
      interval_cases i <;>
        exact absurd (show _ = ("emergency_bodyweight" : String) from hlab) (by decide)
    · rw [heq]
      simp only [getEmergencyExercises, hq]
      rfl

theorem c2_witness :
    (applyCascadeFallback [] userBW 1 []).1 ≠ [] ∧
    (emergencyQueryPool [] [] = [] →
      (applyCascadeFallback [] userBW 1 []).2 = "emergency_bodyweight" →
      (applyCascadeFallback [] userBW 1 []).1 = hardcodedFallback) :=
  c2_cascade_total [] userBW 1 [] (by decide)

/-! ## Claim C3 -/

/-- C3 (counterexample): on an empty catalog with requested main count 3
(minRequired 9) the cascade returns the label "emergency_bodyweight" with
a pool of 5 hardcoded exercises, although no level -- the returned one
included -- has a pool of at least minRequired, so the returned label is
not "the first level whose pool contains at least minRequired". -/
theorem c3_counterexample :
    (applyCascadeFallback [] userBW (3 * 3) []).2 = "emergency_bodyweight" ∧
    (applyCascadeFallback [] userBW (3 * 3) []).1.length = 5 ∧
    ((List.range 6).all
      (fun i => decide ((levelPool [] userBW (3 * 3) [] i).length < 3 * 3))) = true := by
  decide

/-- C3 (amended): with minRequired = 3 x n, either some level among 1..5
is the first whose filtered pool reaches minRequired and its label and
pool are returned, or no such level exists and the emergency label is
returned with the emergency pool regardless of that pool reaching
minRequired. -/
theorem c3_first_level (catalog : List Exercise) (user : UserSnapshot) (n : Nat)
    (excluded : List String) :
    (∃ i, i < 5 ∧
      n * 3 ≤ (levelPool catalog user (n * 3) excluded i).length ∧
      (∀ j, j < i → (levelPool catalog user (n * 3) excluded j).length < n * 3) ∧
      applyCascadeFallback catalog user (n * 3) excluded =
        (levelPool catalog user (n * 3) excluded i, levelName i)) ∨
    ((∀ j, j < 5 → (levelPool catalog user (n * 3) excluded j).length < n * 3) ∧
      applyCascadeFallback catalog user (n * 3) excluded =
        (getEmergencyExercises catalog excluded, "emergency_bodyweight")) :=
  cascade_cases catalog user (n * 3) excluded

/-! ## Claim C7 -/

theorem mem_insertSorted {le : α → α → Bool} {x a : α} :
    ∀ {l : List α}, a ∈ insertSorted le x l → a = x ∨ a ∈ l := by
  intro l
  induction l with
  | nil => intro h; simpa [insertSorted] using h
  | cons y ys ih =>
    intro h
    simp only [insertSorted] at h
    split at h
    · simpa using h
    · rcases List.mem_cons.mp h with h2 | h2
      · exact Or.inr (h2 ▸ List.mem_cons_self y ys)
      · rcases ih h2 with h3 | h3
        · exact Or.inl h3
        · exact Or.inr (List.mem_cons_of_mem y h3)

theorem insertSorted_pairwise {le : α → α → Bool}
    (htot : ∀ a b, le a b = true ∨ le b a = true)
    (htrans : ∀ a b c, le a b = true → le b c = true → le a c = true) (x : α) :
    ∀ {l : List α}, l.Pairwise (fun a b => le a b = true) →
      (insertSorted le x l).Pairwise (fun a b => le a b = true) := by
  intro l
  induction l with
  | nil => intro _; simp [insertSorted]
  | cons y ys ih =>
    intro hp
    have hpy := List.pairwise_cons.mp hp
    simp only [insertSorted]
    split
    · next hxy =>
      refine List.pairwise_cons.mpr ⟨?_, hp⟩
      intro b hb
      rcases List.mem_cons.mp hb with h2 | h2
      · exact h2 ▸ hxy
      · exact htrans x y b hxy (hpy.1 b h2)
    · next hxy =>
      have hyx : le y x = true := by
        rcases htot x y with h | h
        · exact absurd h hxy
        · exact h
      refine List.pairwise_cons.mpr ⟨?_, ih hpy.2⟩
      intro b hb
      rcases mem_insertSorted hb with h2 | h2
      · exact h2 ▸ hyx
      · exact hpy.1 b h2

theorem sortBy_pairwise {le : α → α → Bool}
    (htot : ∀ a b, le a b = true ∨ le b a = true)
    (htrans : ∀ a b c, le a b = true → le b c = true → le a c = true) :
    ∀ (l : List α), (sortBy le l).Pairwise (fun a b => le a b = true) := by
  intro l
  induction l with
  | nil => simp [sortBy]
  | cons x xs ih => exact insertSorted_pairwise htot htrans x ih

/-- The scored list of one scoring pass, in the order the selector walks it
(descending scores, ties in original order). -/
def sortedScored (exercises : List Exercise) (user : UserSnapshot)
    (recencyMap : List (String × ℚ)) (prefs : UserPreferences)
    (jitter : Nat → ℚ) : List (Exercise × ℚ) :=
  sortBy scoreDesc (mapIdx (fun i ex => (ex, scoreOf user prefs recencyMap (jitter i) ex)) 0 exercises)

/-- The greedy capped pass of one scoring pass. -/
def cappedPass (exercises : List Exercise) (user : UserSnapshot)
    (recencyMap : List (String × ℚ)) (prefs : UserPreferences)
    (jitter : Nat → ℚ) (count : Nat) : List Exercise :=
  selectCapped (sortedScored exercises user recencyMap prefs jitter) count [] []

/-- C7: in every selected main-exercise list, at most 2 exercises share a
(lowercased) body part, unless the capped pass starves the selection below
the requested count; in that case the final selection is the capped pass
extended by the relax pass, which walks the score-sorted list regardless of
body part -- and that list is sorted by descending score. -/
theorem c7_bodypart_cap (exercises : List Exercise) (user : UserSnapshot)
    (excludedIds : List String) (recencyMap : List (String × ℚ)) (prefs : UserPreferences)
    (jitter : Nat → ℚ) (count : Nat) :
    (¬ (cappedPass exercises user recencyMap prefs jitter count).length < count →
      ∀ bp, bpCount (scoreAndSelect exercises user excludedIds recencyMap prefs jitter count) bp ≤ 2) ∧
    ((cappedPass exercises user recencyMap prefs jitter count).length < count →
      scoreAndSelect exercises user excludedIds recencyMap prefs jitter count =
        relaxFill (sortedScored exercises user recencyMap prefs jitter) count
          (cappedPass exercises user recencyMap prefs jitter count)) ∧
    List.Pairwise (fun a b => scoreDesc a b = true)
      (sortedScored exercises user recencyMap prefs jitter) := by
  have hfold : scoreAndSelect exercises user excludedIds recencyMap prefs jitter count =
      if (cappedPass exercises user recencyMap prefs jitter count).length < count then
        relaxFill (sortedScored exercises user recencyMap prefs jitter) count
          (cappedPass exercises user recencyMap prefs jitter count)
      else cappedPass exercises user recencyMap prefs jitter count := rfl
  refine ⟨?_, ?_, ?_⟩
  · intro hns bp
    rw [hfold, if_neg hns]
    refine selectCapped_cap _ count [] [] ?_ ?_ bp
    · intro bp2; rfl
    · intro bp2; simp [bpCount]
  · intro hs
    rw [hfold, if_pos hs]
  · refine sortBy_pairwise ?_ ?_ _
    · intro a b
      simp only [scoreDesc, decide_eq_true_eq]
      exact le_total b.2 a.2
    · intro a b c
      simp only [scoreDesc, decide_eq_true_eq]
      intro h1 h2
      exact le_trans h2 h1

theorem c7_witness :
    bpCount (scoreAndSelect hardcodedFallback userBW [] [] prefsDefault (fun _ => 0) 3) "legs" ≤ 2 :=
  (c7_bodypart_cap hardcodedFallback userBW [] [] prefsDefault (fun _ => 0) 3).1 (by decide) "legs"

/-! ## Claim C6 -/

/-- A user whose only equipment is resistance bands. -/
def user6 : UserSnapshot :=
  { userId := "user-6", primaryGoal := "general_fitness", fitnessLevel := "Beginner"
    equipmentList := ["Bands"], bmiCategory := "normal", injuryTypes := []
    weightKg := 70, heightCm := 175 }

/-- A band exercise used 1 day ago (its equipment matches the user). -/
def exA6 : Exercise :=
  { title := "Band Row A", bodyPart := "Back", equipment := "Bands", level := "Beginner"
    descr := "", exerciseIdClean := some "ex-a", isActive := true, isBodyweight := false
    movementPattern := none, typ := none }

/-- An exercise used 13 days ago (equipment not in the user list). -/
def exB6 : Exercise :=
  { title := "Cable Row B", bodyPart := "Back", equipment := "Other", level := "Beginner"
    descr := "", exerciseIdClean := some "ex-b", isActive := true, isBodyweight := false
    movementPattern := none, typ := none }

/-- An exercise not used within the 14-day window. -/
def exC6 : Exercise :=
  { title := "Row C", bodyPart := "Back", equipment := "Other", level := "Beginner"
    descr := "", exerciseIdClean := some "ex-c", isActive := true, isBodyweight := false
    movementPattern := none, typ := none }

/-- A 14-day history: eight other exercises used within the last day, then
the 1-day-ago exercise, then the 13-days-ago exercise. -/
def hist6 : List (String × ℚ) :=
  [("x1", 1/10), ("x2", 2/10), ("x3", 3/10), ("x4", 4/10), ("x5", 1/2),
   ("x6", 6/10), ("x7", 7/10), ("x8", 4/5), ("ex-a", 1), ("ex-b", 13)]

/-- The recency map the generator builds from that history. -/
def recMap6 : List (String × ℚ) :=
  dictOfPairs (getRecentPairs hist6 14)

/-- C6 (counterexample): in a scoring pass over a pool holding an exercise
used 1 day ago (`exA6`), one used 13 days ago (`exB6`) and one never used
(`exC6`), the 1-day-ago exercise scores strictly higher than the
13-days-ago one: its rank-based recency penalty is small (rank 8 of 10)
while its equipment-match boost (+0.15) more than compensates. -/
theorem c6_counterexample :
    ("ex-a", (1 : ℚ)) ∈ hist6 ∧ ("ex-b", (13 : ℚ)) ∈ hist6 ∧
    hist6.all (fun p => !(p.1 == "ex-c")) = true ∧
    exId exA6 = "ex-a" ∧ exId exB6 = "ex-b" ∧ exId exC6 = "ex-c" ∧
    scoreOf user6 prefsDefault recMap6 0 exB6 < scoreOf user6 prefsDefault recMap6 0 exA6 := by
  decide

/-- C6 (amended): when the three exercises receive identical body-part and
equipment boost terms and the 14-day window holds exactly the 1-day-ago and
the 13-days-ago exercise, the strict ordering claimed holds for every
jitter draw in [0, 0.05]: the 1-day-ago exercise (recency 1, penalty 0.8)
scores strictly below the 13-days-ago one (recency 1/2, penalty 0.2),
which scores strictly below the never-used one (no penalty). -/
theorem c6_recency_order (user : UserSnapshot) (prefs : UserPreferences)
    (a b c : Exercise) (m : List (String × ℚ)) (ja jb jc : ℚ)
    (hm : m = dictOfPairs (getRecentPairs [(exId a, 1), (exId b, 13)] 14))
    (hja : 0 ≤ ja) (hja2 : ja ≤ 1/20) (hjb : 0 ≤ jb) (hjb2 : jb ≤ 1/20)
    (hjc : 0 ≤ jc) (hjc2 : jc ≤ 1/20)
    (hbp1 : a.bodyPart = b.bodyPart) (hbp2 : b.bodyPart = c.bodyPart)
    (heq1 : a.equipment = b.equipment) (heq2 : b.equipment = c.equipment)
    (hab : exId a ≠ exId b) (hca : exId c ≠ exId a) (hcb : exId c ≠ exId b) :
    scoreOf user prefs m ja a < scoreOf user prefs m jb b ∧
    scoreOf user prefs m jb b < scoreOf user prefs m jc c := by
  have hrp : getRecentPairs [(exId a, 1), (exId b, 13)] 14 =
      [(exId a, 1), (exId b, 1/2)] := by
    norm_num [getRecentPairs, sortBy, insertSorted, mapIdx, List.filter_cons]
  have hab2 : (exId a == exId b) = false := beq_eq_false_iff_ne.mpr hab
  have hba2 : (exId b == exId a) = false := beq_eq_false_iff_ne.mpr (Ne.symm hab)
  have hd : m = [(exId b, 1/2), (exId a, 1)] := by
    rw [hm, hrp]
    simp [dictOfPairs, dictSet, List.filter_cons, hab2]
  have hla : m.find? (fun p => p.1 == exId a) = some (exId a, 1) := by
    rw [hd]
    simp [List.find?, hba2]
  have hlb : m.find? (fun p => p.1 == exId b) = some (exId b, 1/2) := by
    rw [hd]
    simp [List.find?]
  have hlc : m.find? (fun p => p.1 == exId c) = none := by
    have h1 : (exId b == exId c) = false := beq_eq_false_iff_ne.mpr (Ne.symm hcb)
    have h2 : (exId a == exId c) = false := beq_eq_false_iff_ne.mpr (Ne.symm hca)
    rw [hd]
    simp [List.find?, h1, h2]
  simp only [scoreOf, hla, hlb, hlc]
  rw [show b.bodyPart = a.bodyPart from hbp1.symm,
    show c.bodyPart = a.bodyPart from (hbp1.trans hbp2).symm,
    show b.equipment = a.equipment from heq1.symm,
    show c.equipment = a.equipment from (heq1.trans heq2).symm]
  by_cases h1 : lowerStr a.bodyPart ∈ prefs.preferredBodyParts <;>
    by_cases h2 : a.equipment ∈ user.equipmentList <;>
    simp [h1, h2] <;>
    (norm_num
     generalize dictGet prefs.bodyPartSatisfaction (lowerStr a.bodyPart) 0 = t
     clear hm hrp hd hla hlb hlc hab2 hba2 hab hca hcb hbp1 hbp2 heq1 heq2 h1 h2
     constructor <;> (ring_nf; linarith))

/-- The 1-day-ago exercise of the witness, with the same body part and
equipment as the other two. -/
def exA7 : Exercise :=
  { title := "Band Row A", bodyPart := "Back", equipment := "Other", level := "Beginner"
    descr := "", exerciseIdClean := some "ex-a", isActive := true, isBodyweight := false
    movementPattern := none, typ := none }

theorem c6_witness :
    scoreOf user6 prefsDefault (dictOfPairs (getRecentPairs [(exId exA7, 1), (exId exB6, 13)] 14)) 0 exA7 <
      scoreOf user6 prefsDefault (dictOfPairs (getRecentPairs [(exId exA7, 1), (exId exB6, 13)] 14)) 0 exB6 ∧
    scoreOf user6 prefsDefault (dictOfPairs (getRecentPairs [(exId exA7, 1), (exId exB6, 13)] 14)) 0 exB6 <
      scoreOf user6 prefsDefault (dictOfPairs (getRecentPairs [(exId exA7, 1), (exId exB6, 13)] 14)) 0 exC6 :=
  c6_recency_order user6 prefsDefault exA7 exB6 exC6 _ 0 0 0 rfl (by decide) (by decide)
    (by decide) (by decide) (by decide) (by decide) (by decide) (by decide) (by decide)
    (by decide) (by decide) (by decide) (by decide)

/-! ## Claim C1 -/

/-- A user snapshot already categorized severe_obese (day-level claims). -/
def userSO : UserSnapshot :=
  { userId := "user-so", primaryGoal := "general_fitness", fitnessLevel := "Beginner"
    equipmentList := ["Bodyweight"], bmiCategory := "severe_obese", injuryTypes := []
    weightKg := 120, heightCm := 150 }

/-- Nine active bodyweight beginner exercises whose titles are clean but
whose descriptions contain the blacklisted word "jumping". -/
def mkC1 (t i : String) : Exercise :=
  { title := t, bodyPart := "Back", equipment := "Bodyweight", level := "Beginner",
    descr := "easy jumping drill", exerciseIdClean := some i, isActive := true,
    isBodyweight := true, movementPattern := none, typ := none }

def catC1 : List Exercise :=
  [mkC1 "Safe One" "safe-1", mkC1 "Safe Two" "safe-2", mkC1 "Safe Three" "safe-3",
   mkC1 "Safe Four" "safe-4", mkC1 "Safe Five" "safe-5", mkC1 "Safe Six" "safe-6",
   mkC1 "Safe Seven" "safe-7", mkC1 "Safe Eight" "safe-8", mkC1 "Safe Nine" "safe-9"]

/-- The day context of the severe_obese user over that catalog. -/
def ctxC1 : DayCtx :=
  { catalog := catC1, user := userSO, recencyMap := [], prefs := prefsDefault
    motivationScore := 0 }

/-- C1 (counterexample): a generated day for a severe_obese user resolves
at the perfect level and selects only exercises whose description contains
the blacklisted keyword "jumping": the generator filters titles only and
never reads descriptions. -/
theorem c1_counterexample :
    "jumping" ∈ blacklistOf "severe_obese" ∧
    (dayPoolFallback ctxC1 (getExerciseCount (mainDurationOf 10) * 3) []).2 = "perfect" ∧
    daySelected ctxC1 10 [] rngZero ≠ [] ∧
    (daySelected ctxC1 10 [] rngZero).all (fun ex => containsCI ex.descr "jumping") = true ∧
    (generateDayPlan ctxC1 10 [] rngZero).1.main.map (fun d => d.name) =
      (daySelected ctxC1 10 [] rngZero).map (fun ex => ex.title) := by
  decide

/-- C1 (amended): in every generated weekly plan, on every day whose
fallback label is one of the four title-filtered levels, no main exercise
NAME contains, as a case-insensitive substring, any BMI blacklist keyword
of the computed BMI category nor any contraindication keyword of the
injuries of the user.  Descriptions are never inspected by the generator,
and the bmi_relaxed and emergency_bodyweight levels drop the title filter
altogether. -/
theorem c1_title_safety (catalog : List Exercise) (user : UserSnapshot)
    (history : List (String × ℚ)) (sessionLogs : List (Option ℚ))
    (historySummary : Option (Option ℚ × Option ℚ))
    (durations : List (String × Nat)) (rng : Nat → DayRng) :
    ∀ e ∈ weekEntries catalog user history sessionLogs historySummary durations rng,
      e.2.2 ∈ level14Names →
      ∀ det ∈ e.2.1.main, ∀ kw,
        kw ∈ blacklistOf (getBmiCategory (computeBmi user.weightKg user.heightCm)) ++
          injuryKwsOf user.injuryTypes →
        containsCI det.name kw = false := by
  intro e he
  refine weekLoop_entries_pred _ _ _ _
    (fun e2 => e2.2.2 ∈ level14Names →
      ∀ det ∈ e2.2.1.main, ∀ kw,
        kw ∈ blacklistOf (getBmiCategory (computeBmi user.weightKg user.heightCm)) ++
          injuryKwsOf user.injuryTypes →
        containsCI det.name kw = false)
    ?_ ?_ daysOfWeek 0 [] [] [] (by intro e2 h2; simp at h2) e he
  · intro day hlab
    exact absurd (show ("rest" : String) ∈ level14Names from hlab) (by decide)
  · intro day duration excl i hlab det hdet kw hkw
    exact generateDayPlan_title_safe _ duration excl (rng i) hlab det hdet kw hkw

/-- The empty exercise detail used as a list default in witnesses. -/
def detDefault : ExerciseDetail :=
  { id := "", name := "", bodyPart := "", equipmentRequired := "", sets := none
    reps := none, durationSecs := none, restSeconds := 0, predictedRpeRange := (0, 0)
    notes := "", tags := [] }

/-- A user not yet categorized whose weight and height compute to a
severe_obese BMI (120 kg at 150 cm). -/
def userW : UserSnapshot :=
  { userId := "user-w", primaryGoal := "general_fitness", fitnessLevel := "Beginner"
    equipmentList := ["Bodyweight"], bmiCategory := "normal", injuryTypes := []
    weightKg := 120, heightCm := 150 }

theorem c1_witness :
    containsCI ((((weekEntries catC1 userW [] [] none [("monday", 10)]
        (fun _ => rngZero)).headD ("", createRestDay, "")).2.1.main.headD detDefault).name)
      "jump" = false :=
  c1_title_safety catC1 userW [] [] none [("monday", 10)] (fun _ => rngZero)
    ((weekEntries catC1 userW [] [] none [("monday", 10)]
      (fun _ => rngZero)).headD ("", createRestDay, ""))
    (by decide) (by decide)
    (((weekEntries catC1 userW [] [] none [("monday", 10)]
      (fun _ => rngZero)).headD ("", createRestDay, "")).2.1.main.headD detDefault)
    (by decide) "jump" (by decide)

/-! ## Claim C5 -/

set_option maxHeartbeats 1000000 in
/-- C5 (amended): when every catalog exercise carries a clean id, main
exercise ids repeat across the days of one generated week only through
the hardcoded terminal fallback ids: any id shared by the main sections
of two different day entries is one of pushups, squats, plank, lunges,
mountain-climbers.  The week loop excludes previously used ids at query
level, but the hardcoded terminal set and the emergency override ignore
the exclusion list. -/
theorem c5_no_repeat (catalog : List Exercise) (user : UserSnapshot)
    (history : List (String × ℚ)) (sessionLogs : List (Option ℚ))
    (historySummary : Option (Option ℚ × Option ℚ))
    (durations : List (String × Nat)) (rng : Nat → DayRng)
    (hcat : ∀ e ∈ catalog, e.exerciseIdClean.isSome = true) :
    List.Pairwise sharesOnlyHardcoded
      (weekEntries catalog user history sessionLogs historySummary durations rng) := by
  refine weekLoop_pairwise _ rng durations _ ?_ daysOfWeek 0 [] [] []
    (fun e he => absurd he (List.not_mem_nil e)) List.Pairwise.nil
  exact hcat

/-- A two-active-day schedule (10 minutes each). -/
def durC5 : List (String × Nat) :=
  [("monday", 10), ("tuesday", 10)]

def mkC5 (t i : String) : Exercise :=
  { title := t, bodyPart := "Back", equipment := "Barbell", level := "Expert",
    descr := "", exerciseIdClean := some i, isActive := true,
    isBodyweight := false, movementPattern := none, typ := none }

/-- Six distinct active Expert barbell exercises: the safety filter keeps
all of them, yet a Beginner bodyweight user can use none. -/
def catC5 : List Exercise :=
  [mkC5 "Row A" "ca", mkC5 "Row B" "cb", mkC5 "Row C" "cc",
   mkC5 "Row D" "cd", mkC5 "Row E" "ce", mkC5 "Row F" "cf"]

/-- C5 (counterexample): the effective catalog after safety filtering (6
exercises) meets the weekly requirement (3 + 3 = 6 main slots), yet the
id "pushups" — which is not even a catalog id — appears in the main
sections of two different days: every cascade level starves on the
Expert barbell catalog, both days end in the hardcoded terminal set, and
that set ignores the week's exclusion list. -/
theorem c5_counterexample :
    weeklyRequirementSpec durC5 ≤
      (filterForSafety catC5
        (getBmiCategory (computeBmi userBW.weightKg userBW.heightCm))
        userBW.injuryTypes).length ∧
    ((weekEntries catC5 userBW [] [] none durC5 (fun _ => rngZero)).getD 0
        ("", createRestDay, "")).1 ≠
      ((weekEntries catC5 userBW [] [] none durC5 (fun _ => rngZero)).getD 1
        ("", createRestDay, "")).1 ∧
    "pushups" ∈ entryMainIds ((weekEntries catC5 userBW [] [] none durC5
      (fun _ => rngZero)).getD 0 ("", createRestDay, "")) ∧
    "pushups" ∈ entryMainIds ((weekEntries catC5 userBW [] [] none durC5
      (fun _ => rngZero)).getD 1 ("", createRestDay, "")) ∧
    "pushups" ∉ catC5.map exId := by
  decide

theorem c5_witness :
    List.Pairwise sharesOnlyHardcoded
      (weekEntries catC5 userBW [] [] none durC5 (fun _ => rngZero)) :=
  c5_no_repeat catC5 userBW [] [] none durC5 (fun _ => rngZero) (by decide)

/-! ## Claim C8 -/

theorem levelPool_sublist (catalog : List Exercise) (user : UserSnapshot) (minEx : Nat)
    (excluded : List String) (i : Nat) (hi : i < 5) :
    (levelPool catalog user minEx excluded i).Sublist catalog := by
  interval_cases i <;>
    exact List.Sublist.trans (mongoLimit_sublist _ _) (List.filter_sublist _)

/-- At a title-filtered fallback level the day pool is the cascade's
level pool: it holds at least `minEx` exercises and is a sublist of the
catalog. -/
theorem dayPool_L14_large (ctx : DayCtx) (minEx : Nat) (excluded : List String)
    (hlab : (dayPoolFallback ctx minEx excluded).2 ∈ level14Names) :
    minEx ≤ (dayPoolFallback ctx minEx excluded).1.length ∧
    (dayPoolFallback ctx minEx excluded).1.Sublist ctx.catalog := by
  have hdp := dayPoolFallback_L14 ctx minEx excluded hlab
  rw [hdp] at hlab ⊢
  rcases cascade_cases ctx.catalog ctx.user minEx excluded with
    ⟨i, hi5, hlen, _, heq⟩ | ⟨_, heq⟩
  · rw [heq]
    exact ⟨hlen, levelPool_sublist ctx.catalog ctx.user minEx excluded i hi5⟩
  · rw [heq] at hlab
    exact absurd (show ("emergency_bodyweight" : String) ∈ level14Names from hlab) (by decide)

/-- C8 (amended): for any day context whose user carries the severe_obese
BMI category and a duplicate-free catalog, a 30-minute day allocates 5
warmup, 3 cooldown and 22 main minutes with a requested main count of 4,
and every main exercise has predicted RPE range (6, 7).  The main section
really holds 4 exercises, and no main exercise name contains "jump" or
"burpee", whenever the day's fallback label is one of the four
title-filtered levels; at the bmi_relaxed and emergency levels the title
filter is dropped and the count can fall short. -/
theorem c8_example_day (ctx : DayCtx) (excluded : List String) (rng : DayRng)
    (hbmi : ctx.user.bmiCategory = "severe_obese") (hnd : ctx.catalog.Nodup) :
    warmupDurationOf 30 = 5 ∧ cooldownDurationOf 30 = 3 ∧ mainDurationOf 30 = 22 ∧
    getExerciseCount (mainDurationOf 30) = 4 ∧
    (∀ det ∈ (generateDayPlan ctx 30 excluded rng).1.main,
      det.predictedRpeRange = (6, 7)) ∧
    ((generateDayPlan ctx 30 excluded rng).2 ∈ level14Names →
      (generateDayPlan ctx 30 excluded rng).1.main.length = 4 ∧
      ∀ det ∈ (generateDayPlan ctx 30 excluded rng).1.main,
        containsCI det.name "jump" = false ∧ containsCI det.name "burpee" = false) := by
  refine ⟨by decide, by decide, by decide, by decide, ?_, ?_⟩
  · intro det hdet
    have hdet2 : det ∈ (generateDayPlan ctx 30 excluded rng).1.main := hdet
    simp only [generateDayPlan] at hdet2
    obtain ⟨j, ex, hex, hdet3⟩ := mem_mapIdx hdet2
    have h1 : det.predictedRpeRange =
        (6, min 9 (dictGet bmiRpeCaps ctx.user.bmiCategory 10)) := by
      rw [hdet3]
      rfl
    rw [h1, hbmi]
    decide
  · intro hlab
    have hlab2 : (dayPoolFallback ctx (getExerciseCount (mainDurationOf 30) * 3) excluded).2
        ∈ level14Names := hlab
    obtain ⟨hlen, hsub⟩ := dayPool_L14_large ctx (getExerciseCount (mainDurationOf 30) * 3)
      excluded hlab2
    refine ⟨?_, ?_⟩
    · have hmains : (generateDayPlan ctx 30 excluded rng).1.main =
          mapIdx (fun i ex => buildExerciseDetail ex ctx.user ctx.prefs (rng.setsDraw i)
            (rng.repsDraw i)) 0 (daySelected ctx 30 excluded rng) := rfl
      have hsel : daySelected ctx 30 excluded rng =
          scoreAndSelect
            ((dayPoolFallback ctx (getExerciseCount (mainDurationOf 30) * 3) excluded).1)
            ctx.user excluded ctx.recencyMap ctx.prefs rng.jitter
            (getExerciseCount (mainDurationOf 30)) := rfl
      rw [hmains, mapIdx_length, hsel]
      rw [scoreAndSelect_length
        ((dayPoolFallback ctx (getExerciseCount (mainDurationOf 30) * 3) excluded).1)
        ctx.user excluded ctx.recencyMap ctx.prefs rng.jitter
        (getExerciseCount (mainDurationOf 30)) (hsub.nodup hnd) (by omega)]
      decide
    · intro det hdet
      exact ⟨generateDayPlan_title_safe ctx 30 excluded rng hlab det hdet "jump"
          (by rw [hbmi]; exact List.mem_append.mpr (Or.inl (by decide))),
        generateDayPlan_title_safe ctx 30 excluded rng hlab det hdet "burpee"
          (by rw [hbmi]; exact List.mem_append.mpr (Or.inl (by decide)))⟩

def mkC8 (t i : String) : Exercise :=
  { title := t, bodyPart := "Full Body", equipment := "Bodyweight", level := "Beginner",
    descr := "", exerciseIdClean := some i, isActive := true,
    isBodyweight := true, movementPattern := none, typ := none }

/-- Twelve distinct active bodyweight Beginner exercises whose titles all
contain the blacklisted word "Jump". -/
def catC8 : List Exercise :=
  [mkC8 "Jump One" "j1", mkC8 "Jump Two" "j2", mkC8 "Jump Three" "j3",
   mkC8 "Jump Four" "j4", mkC8 "Jump Five" "j5", mkC8 "Jump Six" "j6",
   mkC8 "Jump Seven" "j7", mkC8 "Jump Eight" "j8", mkC8 "Jump Nine" "j9",
   mkC8 "Jump Ten" "j10", mkC8 "Jump Eleven" "j11", mkC8 "Jump Twelve" "j12"]

/-- The day context of the severe_obese bodyweight Beginner user over
that catalog. -/
def ctxC8 : DayCtx :=
  { catalog := catC8, user := userSO, recencyMap := [], prefs := prefsDefault
    motivationScore := 0 }

/-- C8 (counterexample): for the exact user of the claim (Bodyweight
equipment, Beginner, severe_obese) and a 30-minute day, the title filter
starves levels 1-4, level 5 drops the Title entry, and the day selects
main exercises whose names contain "jump". -/
theorem c8_counterexample :
    userSO.bmiCategory = "severe_obese" ∧
    userSO.equipmentList = ["Bodyweight"] ∧
    userSO.fitnessLevel = "Beginner" ∧
    (generateDayPlan ctxC8 30 [] rngZero).2 = "bmi_relaxed" ∧
    ((generateDayPlan ctxC8 30 [] rngZero).1.main.any
      (fun det => containsCI det.name "jump")) = true := by
  decide

theorem c8_witness :
    warmupDurationOf 30 = 5 ∧ cooldownDurationOf 30 = 3 ∧ mainDurationOf 30 = 22 ∧
    getExerciseCount (mainDurationOf 30) = 4 ∧
    (∀ det ∈ (generateDayPlan ctxC8 30 [] rngZero).1.main,
      det.predictedRpeRange = (6, 7)) ∧
    ((generateDayPlan ctxC8 30 [] rngZero).2 ∈ level14Names →
      (generateDayPlan ctxC8 30 [] rngZero).1.main.length = 4 ∧
      ∀ det ∈ (generateDayPlan ctxC8 30 [] rngZero).1.main,
        containsCI det.name "jump" = false ∧ containsCI det.name "burpee" = false) :=
  c8_example_day ctxC8 [] rngZero rfl (by decide)

/-! ## Claim C9 -/

/-- Occurrences of an id among the main slots of a generated week. -/
def weekMainOccurrences (catalog : List Exercise) (user : UserSnapshot)
    (history : List (String × ℚ)) (sessionLogs : List (Option ℚ))
    (historySummary : Option (Option ℚ × Option ℚ))
    (durations : List (String × Nat)) (rng : Nat → DayRng) (id : String) : Nat :=
  ((weekEntries catalog user history sessionLogs historySummary durations rng).map
    (fun e => (entryMainIds e).count id)).sum

/-- Counting through the extraction fold: an id passing the extraction
filter is counted once per main-slot occurrence. -/
theorem count_extractExerciseIds (days : List (String × DayPlan)) (x : String)
    (hx : (!(x == "") && !(syntheticIds.contains x)) = true) :
    ∀ acc : List String,
      (days.foldl (fun acc dp =>
        acc ++ (dp.2.main.map (fun d => d.id)).filter
          (fun i => !(i == "") && !(syntheticIds.contains i))) acc).count x =
      acc.count x + (days.map (fun dp => (dp.2.main.map (fun d => d.id)).count x)).sum := by
  induction days with
  | nil => intro acc; simp
  | cons dp rest ih =>
    intro acc
    simp only [List.foldl_cons, List.map_cons, List.sum_cons]
    have hcf : List.count x (List.filter (fun i => !(i == "") && !(syntheticIds.contains i))
        (List.map (fun d => d.id) dp.2.main)) =
        List.count x (List.map (fun d => d.id) dp.2.main) := List.count_filter hx
    rw [ih, List.count_append, hcf]
    omega

/-- C9 (amended): the event trace of one weekly generation is exactly the
seven day-build events (one per day of the week, in order), then the one
workout insert, then the usage upserts: persistence and tracker writes
happen only after all 7 day plans are built.  Synthetic warmup/cooldown
ids are never upserted.  The tracker upsert fires once per OCCURRENCE of
a (non-empty, non-synthetic) main exercise id in the week — not once per
distinct id, as a repeated id is upserted repeatedly. -/
theorem c9_deferred_writes (catalog : List Exercise) (user : UserSnapshot)
    (weekStartIso : String) (history : List (String × ℚ)) (sessionLogs : List (Option ℚ))
    (historySummary : Option (Option ℚ × Option ℚ))
    (durations : List (String × Nat)) (rng : Nat → DayRng) :
    (generateWeeklyPlan catalog user weekStartIso history sessionLogs historySummary
        durations rng).2 =
      daysOfWeek.map StoreEvent.dayBuilt ++ StoreEvent.workoutInserted ::
        (extractExerciseIds (generateWeeklyPlan catalog user weekStartIso history
          sessionLogs historySummary durations rng).1).map StoreEvent.usageUpserted ∧
    (∀ sid ∈ syntheticIds,
      StoreEvent.usageUpserted sid ∉
        (generateWeeklyPlan catalog user weekStartIso history sessionLogs historySummary
          durations rng).2) ∧
    (∀ id : String, (id == "") = false → syntheticIds.contains id = false →
      ((generateWeeklyPlan catalog user weekStartIso history sessionLogs historySummary
          durations rng).2).count (StoreEvent.usageUpserted id) =
        weekMainOccurrences catalog user history sessionLogs historySummary durations rng id) := by
  have hrun : (weekRun catalog user history sessionLogs historySummary durations rng).2.2 =
      daysOfWeek.map StoreEvent.dayBuilt := by
    have h0 := weekLoop_events (weekCtx catalog user history sessionLogs historySummary) rng
      durations ((getRecentPairs history 14).map (fun p => p.1)) daysOfWeek 0 [] [] []
    rw [List.nil_append] at h0
    exact h0
  have htrace : (generateWeeklyPlan catalog user weekStartIso history sessionLogs
      historySummary durations rng).2 =
      daysOfWeek.map StoreEvent.dayBuilt ++ StoreEvent.workoutInserted ::
        (extractExerciseIds (generateWeeklyPlan catalog user weekStartIso history
          sessionLogs historySummary durations rng).1).map StoreEvent.usageUpserted := by
    show (weekRun catalog user history sessionLogs historySummary durations rng).2.2 ++
        StoreEvent.workoutInserted ::
        (extractExerciseIds (generateWeeklyPlan catalog user weekStartIso history
          sessionLogs historySummary durations rng).1).map StoreEvent.usageUpserted = _
    rw [hrun]
  have hdays : (generateWeeklyPlan catalog user weekStartIso history sessionLogs
      historySummary durations rng).1.days =
      (weekEntries catalog user history sessionLogs historySummary durations rng).map
        (fun e => (e.1, e.2.1)) := rfl
  refine ⟨htrace, ?_, ?_⟩
  · intro sid hsid hmem
    rw [htrace] at hmem
    rcases List.mem_append.mp hmem with h | h
    · obtain ⟨d, _, hd⟩ := List.mem_map.mp h
      exact StoreEvent.noConfusion hd
    · rcases List.mem_cons.mp h with h2 | h2
      · exact StoreEvent.noConfusion h2
      · obtain ⟨x, hxmem, hx⟩ := List.mem_map.mp h2
        have hxs : x = sid := by injection hx
        subst hxs
        simp only [extractExerciseIds, hdays] at hxmem
        rcases mem_foldl_append _ [] hxmem with h0 | ⟨dp, _, hdp⟩
        · exact absurd h0 (List.not_mem_nil x)
        · have hpass := (List.mem_filter.mp hdp).2
          simp at hpass
          exact hpass.2 (by simpa using hsid)
  · intro id h1 h2
    have hxpred : (!(id == "") && !(syntheticIds.contains id)) = true := by
      rw [h1, h2]
      rfl
    have hmap0 : (daysOfWeek.map StoreEvent.dayBuilt).count
        (StoreEvent.usageUpserted id) = 0 := by
      rw [List.count_eq_zero]
      intro hmem
      obtain ⟨d, _, hd⟩ := List.mem_map.mp hmem
      exact StoreEvent.noConfusion hd
    have hne2 : StoreEvent.usageUpserted id ≠ StoreEvent.workoutInserted :=
      fun h => StoreEvent.noConfusion h
    have hinj : Function.Injective StoreEvent.usageUpserted := by
      intro a b h
      injection h
    rw [htrace, List.count_append, List.count_cons_of_ne hne2, hmap0, Nat.zero_add]
    rw [List.count_map_of_injective _ _ hinj]
    simp only [extractExerciseIds, hdays]
    rw [count_extractExerciseIds
      ((weekEntries catalog user history sessionLogs historySummary durations rng).map
        (fun e => (e.1, e.2.1))) id hxpred []]
    rw [List.map_map]
    simp only [List.count_nil, Nat.zero_add]
    rfl

/-- C9 (counterexample): on an empty catalog with two active days, both
days fall back to the hardcoded set, the id "pushups" occupies a main
slot on both days, and the tracker upsert for "pushups" fires twice in
one weekly generation — once per occurrence, not once per used id. -/
theorem c9_counterexample :
    ((generateWeeklyPlan [] userBW "2025-01-06" [] [] none durC5
        (fun _ => rngZero)).2).count (StoreEvent.usageUpserted "pushups") = 2 := by
  decide

theorem c9_witness :
    ((generateWeeklyPlan [] userBW "2025-01-06" [] [] none durC5
        (fun _ => rngZero)).2).count (StoreEvent.usageUpserted "pushups") =
      weekMainOccurrences [] userBW [] [] none durC5 (fun _ => rngZero) "pushups" :=
  (c9_deferred_writes [] userBW "2025-01-06" [] [] none durC5
    (fun _ => rngZero)).2.2 "pushups" (by decide) (by decide)

end WorkoutGen
